import Mathlib

/-!
Verification development for the talent-discovery video analyzer
(`ai-services/src/services/video_analyzer.py`).

The Python module is shallowly embedded below.  Machine floats are
modelled by exact rationals; Python `round(x, 1)` (round half to even)
becomes `pyRound1`.  Values decoded from the inference-service response
text (Python `json.loads`) are modelled by the inductive type `Json`
together with an executable recursive-descent decoder `jsonDecodeCL`
that follows the JSON grammar accepted by `json.loads` (the non-standard
`NaN/Infinity` literals, `\u` surrogate pairs and numeric strings are
outside the modelled input space).  Library-computed statistics
(`numpy.std`) are irrational in general, so analyzer entry points take
the standard deviation of the relevant sequence as an explicit argument,
characterized exactly by `IsStd` in the theorems below.
-/

namespace VideoAnalyzer

/-- Python `round(x*10)/10` rounding half to even, the float rounding used by
`round(x, 1)`, modelled exactly over the rationals. -/
def roundHalfEven (x : ℚ) : ℤ :=
  let f := ⌊x⌋
  let r := x - (f : ℚ)
  if r < 1/2 then f
  else if 1/2 < r then f + 1
  else if f % 2 = 0 then f else f + 1

/-- Python `round(x, 1)`: round to one decimal digit, half to even. -/
def pyRound1 (x : ℚ) : ℚ := (roundHalfEven (x * 10) : ℚ) / 10

/-- Python `max(0, min(100, x))` as used in `_normalize_score` and the
fallback normalization loop. -/
def clamp0100 (x : ℚ) : ℚ := max 0 (min 100 x)

/-- Arithmetic mean, `numpy.mean`, over rationals (only applied to nonempty
lists by the embedded code). -/
def listMean (xs : List ℚ) : ℚ := xs.sum / (xs.length : ℚ)

/-- Population variance, the square of `numpy.std`. -/
def listVariance (xs : List ℚ) : ℚ := listMean (xs.map (fun x => (x - listMean xs) ^ 2))

/-- Characterizes `σ = numpy.std xs`: nonnegative square root of the
population variance.  The square root is irrational in general, so the
analyzer entry points receive `σ` as an argument constrained by this
predicate. -/
def IsStd (xs : List ℚ) (σ : ℚ) : Prop := 0 ≤ σ ∧ σ * σ = listVariance xs

/-- A score value is well formed when it lies in `[0, 100]` and has at most
one decimal digit. -/
def validScoreB (q : ℚ) : Bool :=
  decide (0 ≤ q) && decide (q ≤ 100) && ((10 * q).den == 1)

/-- Well-formedness for an optional score: holds vacuously for an absent
value. -/
def validOptScoreB : Option ℚ → Bool
  | none => true
  | some q => validScoreB q

/-! ### The JSON value model

`json.loads` output is modelled by `Json`.  Numbers are kept in the symbolic
form produced by the grammar (sign, mantissa digits, fractional scale,
exponent) so that parsing stays free of rational normalization; `JNum.toRat`
gives the numeric value. -/

/-- A JSON number as written: `value = (-1)^neg * mant / 10^scale * 10^ex`. -/
structure JNum where
  neg : Bool
  mant : ℕ
  scale : ℕ
  ex : ℤ
deriving DecidableEq, Repr

/-- Numeric value of a parsed JSON number. -/
def JNum.toRat (n : JNum) : ℚ :=
  (if n.neg then (-1 : ℚ) else 1) * (n.mant : ℚ) / (10 : ℚ) ^ n.scale * (10 : ℚ) ^ n.ex

/-- Convenience constructor for a plain integer literal. -/
def JNum.ofNat (m : ℕ) : JNum := ⟨false, m, 0, 0⟩

/-- Decoded JSON values (`json.loads` results). -/
inductive Json where
  | null : Json
  | jbool : Bool → Json
  | num : JNum → Json
  | str : String → Json
  | arr : List Json → Json
  | obj : List (String × Json) → Json
deriving Repr

/-! ### The JSON decoder (model of `json.loads`)

A recursive-descent decoder over `List Char` with explicit fuel, following
the JSON grammar accepted by `json.loads`.  Out of the modelled input space
(and flagged here once and for all): the non-standard `NaN/Infinity`
literals, `\u` surrogate pairs, and rejection of raw control characters
inside strings. -/

/-- Character constant for a left brace (avoiding a brace literal). -/
def lbrace : Char := Char.ofNat 123

/-- Character constant for a right brace. -/
def rbrace : Char := Char.ofNat 125

/-- Character constant for a backtick. -/
def btick : Char := Char.ofNat 96

/-- JSON structural whitespace, as skipped by `json.loads`. -/
def jsonWs (c : Char) : Bool := c == ' ' || c == '\t' || c == '\n' || c == '\r'

/-- Numeric value of a list of decimal digit characters. -/
def digitsToNat (ds : List Char) : ℕ := ds.foldl (fun a c => a * 10 + (c.toNat - 48)) 0

/-- Value of a hexadecimal digit character, if it is one. -/
def hexDigitVal (c : Char) : Option ℕ :=
  let n := c.toNat
  if 48 ≤ n ∧ n ≤ 57 then some (n - 48)
  else if 97 ≤ n ∧ n ≤ 102 then some (n - 87)
  else if 65 ≤ n ∧ n ≤ 70 then some (n - 55)
  else none

/-- Single-character string escapes recognized by the JSON grammar. -/
def escChar (e : Char) : Option Char :=
  if e == '"' then some '"'
  else if e == '\\' then some '\\'
  else if e == '/' then some '/'
  else if e == 'b' then some (Char.ofNat 8)
  else if e == 'f' then some (Char.ofNat 12)
  else if e == 'n' then some '\n'
  else if e == 'r' then some '\r'
  else if e == 't' then some '\t'
  else none

/-- Parse the body of a JSON string after the opening quote. -/
def parseStrBody : ℕ → List Char → List Char → Option (String × List Char)
  | 0, _, _ => none
  | fuel + 1, cs, acc =>
    match cs with
    | [] => none
    | c :: rest =>
      if c == '"' then some (String.mk acc.reverse, rest)
      else if c == '\\' then
        match rest with
        | [] => none
        | e :: rest2 =>
          if e == 'u' then
            match rest2 with
            | a :: b :: c2 :: d :: rest3 =>
              match hexDigitVal a, hexDigitVal b, hexDigitVal c2, hexDigitVal d with
              | some ha, some hb, some hc, some hd =>
                parseStrBody fuel rest3 (Char.ofNat (((ha * 16 + hb) * 16 + hc) * 16 + hd) :: acc)
              | _, _, _, _ => none
            | _ => none
          else
            match escChar e with
            | some c' => parseStrBody fuel rest2 (c' :: acc)
            | none => none
      else parseStrBody fuel rest (c :: acc)

/-- Parse the optional exponent part and assemble the number token. -/
def parseExpPart (neg : Bool) (mant : ℕ) (scale : ℕ) (cs : List Char) :
    Option (JNum × List Char) :=
  match cs with
  | [] => some (⟨neg, mant, scale, 0⟩, [])
  | c :: r =>
    if c == 'e' || c == 'E' then
      let signAndRest : Bool × List Char :=
        match r with
        | e :: r' => if e == '-' then (true, r') else if e == '+' then (false, r') else (false, r)
        | [] => (false, r)
      let es := signAndRest.2.takeWhile Char.isDigit
      let r2 := signAndRest.2.dropWhile Char.isDigit
      if es.isEmpty then none
      else
        some (⟨neg, mant, scale,
               if signAndRest.1 then -(digitsToNat es : ℤ) else (digitsToNat es : ℤ)⟩, r2)
    else some (⟨neg, mant, scale, 0⟩, cs)

/-- Parse a JSON number token (sign, integer part with the leading-zero rule,
optional fraction, optional exponent). -/
def parseNum (cs : List Char) : Option (JNum × List Char) :=
  let signAndRest : Bool × List Char :=
    match cs with
    | c :: r => if c == '-' then (true, r) else (false, cs)
    | [] => (false, cs)
  let neg := signAndRest.1
  let cs1 := signAndRest.2
  match cs1 with
  | [] => none
  | d :: _ =>
    if d.isDigit then
      let ds := cs1.takeWhile Char.isDigit
      let rest := cs1.dropWhile Char.isDigit
      if ds.length > 1 && (ds.head? == some '0') then none
      else
        match rest with
        | [] => parseExpPart neg (digitsToNat ds) 0 []
        | c :: r =>
          if c == '.' then
            let fs := r.takeWhile Char.isDigit
            let rest2 := r.dropWhile Char.isDigit
            if fs.isEmpty then none
            else parseExpPart neg (digitsToNat (ds ++ fs)) fs.length rest2
          else parseExpPart neg (digitsToNat ds) 0 rest
    else none

mutual

/-- Parse one JSON value, skipping leading whitespace. -/
def parseVal : ℕ → List Char → Option (Json × List Char)
  | 0, _ => none
  | fuel + 1, cs =>
    match cs.dropWhile jsonWs with
    | [] => none
    | c :: rest =>
      if c == lbrace then parseObjBody fuel rest
      else if c == '[' then parseArrBody fuel rest
      else if c == '"' then
        match parseStrBody (rest.length + 1) rest [] with
        | some (s, r) => some (Json.str s, r)
        | none => none
      else if c == 't' then
        if ['r', 'u', 'e'].isPrefixOf rest then some (Json.jbool true, rest.drop 3) else none
      else if c == 'f' then
        if ['a', 'l', 's', 'e'].isPrefixOf rest then some (Json.jbool false, rest.drop 4) else none
      else if c == 'n' then
        if ['u', 'l', 'l'].isPrefixOf rest then some (Json.null, rest.drop 3) else none
      else
        match parseNum (c :: rest) with
        | some (n, r) => some (Json.num n, r)
        | none => none

/-- Parse an object body after the opening brace. -/
def parseObjBody : ℕ → List Char → Option (Json × List Char)
  | 0, _ => none
  | fuel + 1, cs =>
    match cs.dropWhile jsonWs with
    | [] => none
    | c :: rest =>
      if c == rbrace then some (Json.obj [], rest)
      else parseMembers fuel (c :: rest) []

/-- Parse the members of a nonempty object. -/
def parseMembers : ℕ → List Char → List (String × Json) → Option (Json × List Char)
  | 0, _, _ => none
  | fuel + 1, cs, acc =>
    match cs.dropWhile jsonWs with
    | [] => none
    | c :: rest =>
      if c == '"' then
        match parseStrBody (rest.length + 1) rest [] with
        | some (k, r1) =>
          match r1.dropWhile jsonWs with
          | [] => none
          | c2 :: r2 =>
            if c2 == ':' then
              match parseVal fuel r2 with
              | some (v, r3) =>
                match r3.dropWhile jsonWs with
                | [] => none
                | c3 :: r4 =>
                  if c3 == ',' then parseMembers fuel r4 (acc ++ [(k, v)])
                  else if c3 == rbrace then some (Json.obj (acc ++ [(k, v)]), r4)
                  else none
              | none => none
            else none
        | none => none
      else none

/-- Parse an array body after the opening bracket. -/
def parseArrBody : ℕ → List Char → Option (Json × List Char)
  | 0, _ => none
  | fuel + 1, cs =>
    match cs.dropWhile jsonWs with
    | [] => none
    | c :: rest =>
      if c == ']' then some (Json.arr [], rest)
      else parseItems fuel (c :: rest) []

/-- Parse the items of a nonempty array. -/
def parseItems : ℕ → List Char → List Json → Option (Json × List Char)
  | 0, _, _ => none
  | fuel + 1, cs, acc =>
    match parseVal fuel cs with
    | some (v, r1) =>
      match r1.dropWhile jsonWs with
      | [] => none
      | c :: r2 =>
        if c == ',' then parseItems fuel r2 (acc ++ [v])
        else if c == ']' then some (Json.arr (acc ++ [v]), r2)
        else none
    | none => none

end

/-- Model of `json.loads`: parse one value and require that only whitespace
remains. -/
def jsonDecodeCL (cs : List Char) : Option Json :=
  match parseVal (4 * cs.length + 8) cs with
  | some (j, r) => if (r.dropWhile jsonWs).isEmpty then some j else none
  | none => none

/-! ### Extracting the structured payload from free-form response text

`_analyze_with_openai` first applies the fenced-block regular expression
(three backticks, the tag `json`, then `\s*(.*?)\s*` up to the next three
backticks, with `DOTALL`) and, failing that, the greedy brace-to-brace
expression with `DOTALL`, before calling `json.loads`.  `dropThrough` and
`upToAux` model first-occurrence search; the lazy group bracketed by greedy
whitespace classes amounts to taking the text up to the next closing fence
and trimming it.  A fence opening with no closing fence is not matched; no
later fence opening can match either, since any later opening token itself
contains a closing fence. -/

/-- Suffix strictly after the first occurrence of `pat`, if `pat` occurs. -/
def dropThrough (pat : List Char) : List Char → Option (List Char)
  | [] => if pat.isPrefixOf [] then some [] else none
  | c :: cs' =>
    if pat.isPrefixOf (c :: cs') then some ((c :: cs').drop pat.length)
    else dropThrough pat cs'

/-- Longest prefix strictly before the first occurrence of `pat`, if `pat`
occurs. -/
def upToAux (pat : List Char) : List Char → Option (List Char)
  | [] => if pat.isPrefixOf [] then some [] else none
  | c :: cs' =>
    if pat.isPrefixOf (c :: cs') then some []
    else (upToAux pat cs').map (c :: ·)

/-- Whitespace for the `\s` class of the fence regular expression (the ASCII
fragment; further Unicode whitespace is outside the modelled input space). -/
def reWs (c : Char) : Bool :=
  c == ' ' || c == '\t' || c == '\n' || c == '\r' || c == Char.ofNat 11 || c == Char.ofNat 12

/-- Strip `reWs` whitespace from both ends. -/
def trimWs (cs : List Char) : List Char :=
  ((cs.dropWhile reWs).reverse.dropWhile reWs).reverse

/-- The three-backtick fence token. -/
def fenceTok : List Char := [btick, btick, btick]

/-- The fence-opening token with the `json` info string. -/
def fenceJsonTok : List Char := [btick, btick, btick, 'j', 's', 'o', 'n']

/-- Model of the first regular expression: the whitespace-trimmed text between
the first fence opening and the next closing fence. -/
def fencedExtractCL (cs : List Char) : Option (List Char) :=
  (dropThrough fenceJsonTok cs).bind fun rest =>
    (upToAux fenceTok rest).map trimWs

/-- Model of the greedy fallback regular expression: the span from the first
left brace through the last right brace strictly after it. -/
def braceExtractCL (cs : List Char) : Option (List Char) :=
  match cs.dropWhile (fun c => !(c == lbrace)) with
  | [] => none
  | c :: rest =>
    match ((c :: rest).reverse.dropWhile (fun c' => !(c' == rbrace))) with
    | [] => none
    | r => some r.reverse

/-- The content handed to `json.loads`: fenced block if present, else the
greedy brace span, else the unchanged response text. -/
def extractContentCL (cs : List Char) : List Char :=
  match fencedExtractCL cs with
  | some r => r
  | none =>
    match braceExtractCL cs with
    | some r => r
    | none => cs

/-- Modelled from the spec: the spec describes step (2) of response parsing
as extracting "the first balanced structured-object substring"; no such
bracket-matching extractor exists in the source (which uses the greedy
span), so this definition follows the spec's words for comparison: scan to
the first left brace, then take the shortest initial segment whose braces balance
(brace characters inside string literals are outside the modelled inputs,
as the spec's words do not address them). -/
def balancedTake : ℕ → ℕ → List Char → List Char → Option (List Char)
  | 0, _, _, _ => none
  | _ + 1, _, _, [] => none
  | fuel + 1, depth, acc, c :: rest =>
    if c == lbrace then balancedTake fuel (depth + 1) (c :: acc) rest
    else if c == rbrace then
      if depth = 1 then some (c :: acc).reverse
      else balancedTake fuel (depth - 1) (c :: acc) rest
    else balancedTake fuel depth (c :: acc) rest

/-- Modelled from the spec: first balanced brace-delimited substring (see
`balancedTake`). -/
def braceExtractSpecCL (cs : List Char) : Option (List Char) :=
  match cs.dropWhile (fun c => !(c == lbrace)) with
  | [] => none
  | s => balancedTake (s.length + 1) 0 [] s

/-! ### Building the score record from a decoded payload

Lines 159-168 of `video_analyzer.py`: `scores.get` with defaults, `_normalize_score`,
and the Python truthiness guard on the optional fields. -/

/-- Python `dict.get(k)` on the decoded object: with duplicate keys the last
binding wins, as in a Python dict built by `json.loads`. -/
def pyGet (fields : List (String × Json)) (k : String) : Option Json :=
  (fields.reverse.find? (fun p => p.1 == k)).map Prod.snd

/-- Python `dict.get(k, d)`. -/
def pyGetD (fields : List (String × Json)) (k : String) (d : Json) : Json :=
  (pyGet fields k).getD d

/-- Python truthiness of a decoded JSON value.  For numbers the test is
`value != 0.0`; by `JNum.toRat_eq_zero_iff` that is exactly `mant != 0`. -/
def pyTruthy : Json → Bool
  | Json.null => false
  | Json.jbool b => b
  | Json.num n => !(n.mant == 0)
  | Json.str s => !(s == "")
  | Json.arr xs => !xs.isEmpty
  | Json.obj fs => !fs.isEmpty

/-- Truthiness of a `dict.get` result (Python `None` for an absent key is
falsy). -/
def pyTruthyO : Option Json → Bool
  | none => false
  | some v => pyTruthy v

/-- Python `float(score)` on a decoded value: numbers convert to their value,
booleans to 0/1; other values raise `ValueError`/`TypeError` (numeric strings
are outside the modelled payload space). -/
def pyFloat : Json → Option ℚ
  | Json.num n => some n.toRat
  | Json.jbool b => some (if b then 1 else 0)
  | _ => none

/-- `VideoAnalyzer._normalize_score` on a non-absent argument: `None` maps to
`None`; otherwise clamp to `[0, 100]` and round to one decimal, with `70.0`
for values `float` cannot convert. -/
def normScore (v : Json) : Option ℚ :=
  match v with
  | Json.null => none
  | v =>
    some (match pyFloat v with
          | some x => pyRound1 (clamp0100 x)
          | none => 70)

/-- `VideoAnalyzer._normalize_score` including the absent-argument case. -/
def normScoreO : Option Json → Option ℚ
  | none => none
  | some v => normScore v

/-- The returned assessment record.  The required scores are `Option ℚ`
because `_normalize_score` yields `None` when a payload explicitly binds a
required field to `null`.  `categoryTags` and `feedback` pass through from
the payload unvalidated, hence stay `Json`. -/
structure Assessment where
  performanceScore : Option ℚ
  expressionScore : Option ℚ
  qualityScore : Option ℚ
  timingScore : Option ℚ
  vocalScore : Option ℚ
  movementScore : Option ℚ
  categoryTags : Json
  feedback : Json

/-- The result dictionary built by `_analyze_with_openai` from the decoded
payload (lines 159-168). -/
def buildResult (fields : List (String × Json)) : Assessment :=
  { performanceScore := normScore (pyGetD fields "performanceScore" (Json.num (JNum.ofNat 70)))
    expressionScore := normScore (pyGetD fields "expressionScore" (Json.num (JNum.ofNat 70)))
    qualityScore := normScore (pyGetD fields "qualityScore" (Json.num (JNum.ofNat 75)))
    timingScore := normScore (pyGetD fields "timingScore" (Json.num (JNum.ofNat 70)))
    vocalScore :=
      if pyTruthyO (pyGet fields "vocalScore") then normScoreO (pyGet fields "vocalScore")
      else none
    movementScore :=
      if pyTruthyO (pyGet fields "movementScore") then normScoreO (pyGet fields "movementScore")
      else none
    categoryTags := pyGetD fields "categoryTags" (Json.arr [Json.str "entertainer"])
    feedback := pyGetD fields "feedback" (Json.str "") }

/-! ### The heuristic fallback scorer (`_fallback_analysis`)

The four `random.uniform` draws of one call are an explicit argument. -/

/-- One set of noise draws for a `_fallback_analysis` call. -/
structure Noise where
  base : ℚ
  exprN : ℚ
  qualN : ℚ
  timN : ℚ

/-- The draws actually produced by the `random.uniform` bounds in the source:
`uniform(-5, 10)`, `uniform(-5, 5)`, `uniform(0, 8)`, `uniform(-3, 5)`. -/
def noiseValidB (n : Noise) : Bool :=
  decide (-5 ≤ n.base) && decide (n.base ≤ 10) &&
  decide (-5 ≤ n.exprN) && decide (n.exprN ≤ 5) &&
  decide (0 ≤ n.qualN) && decide (n.qualN ≤ 8) &&
  decide (-3 ≤ n.timN) && decide (n.timN ≤ 5)

/-- The all-zero noise draw (the pinned noise source of the spec's test). -/
def noiseZero : Noise := ⟨0, 0, 0, 0⟩

/-- The fallback baseline before the duration adjustment: `72 + uniform(-5, 10)`. -/
def baseScore (noise : Noise) : ℚ := 72 + noise.base

/-- The duration adjustment: Python `if duration:` is false for `None` and for
`0`, then `+3` for `> 120`, `-2` for `< 15`. -/
def adjustedBase (noise : Noise) (duration : Option ℤ) : ℚ :=
  match duration with
  | none => baseScore noise
  | some d =>
    if d ≠ 0 then
      if 120 < d then baseScore noise + 3
      else if d < 15 then baseScore noise - 2
      else baseScore noise
    else baseScore noise

/-- `VideoAnalyzer._fallback_analysis`: round each derived score to one
decimal, then clamp the four required scores to `[0, 100]`. -/
def fallbackAnalysis (noise : Noise) (duration : Option ℤ) : Assessment :=
  let b := adjustedBase noise duration
  { performanceScore := some (clamp0100 (pyRound1 b))
    expressionScore := some (clamp0100 (pyRound1 (b + noise.exprN)))
    qualityScore := some (clamp0100 (pyRound1 (b + noise.qualN)))
    timingScore := some (clamp0100 (pyRound1 (b + noise.timN)))
    vocalScore := none
    movementScore := none
    categoryTags := Json.arr [Json.str "entertainer"]
    feedback := Json.str "AI analysis unavailable. Score based on video metrics." }

/-! ### The vision path (`_analyze_with_openai`) and the orchestrator -/

/-- Exceptions of the embedded fragment: a failing OpenAI call, a
`json.JSONDecodeError`, and the `AttributeError` raised by `scores.get` when
the decoded payload is not an object. -/
inductive PyErr where
  | upstream : PyErr
  | decodeErr : PyErr
  | attrErr : PyErr
deriving DecidableEq, Repr

/-- Outcome of the external inference call: either the network/service raises,
or it returns free-form response text. -/
inductive VisionOutcome where
  | netFail : VisionOutcome
  | ok : String → VisionOutcome

/-- The `try` body of `_analyze_with_openai` from the external call to the
built result (the image fetch only selects the outbound payload encoding and
cannot affect the returned record). -/
def visionBodyE : VisionOutcome → Except PyErr Assessment
  | VisionOutcome.netFail => Except.error PyErr.upstream
  | VisionOutcome.ok t =>
    match jsonDecodeCL (extractContentCL t.data) with
    | none => Except.error PyErr.decodeErr
    | some (Json.obj fields) => Except.ok (buildResult fields)
    | some _ => Except.error PyErr.attrErr

/-- `VideoAnalyzer._analyze_with_openai`: every exception of the body is
caught inside the method and converted to `_fallback_analysis("", None)`. -/
def analyzeWithOpenai (o : VisionOutcome) (noise : Noise) : Assessment :=
  match visionBodyE o with
  | Except.ok r => r
  | Except.error _ => fallbackAnalysis noise none

/-- Whether `pat` occurs as a contiguous substring (Python `in`). -/
def containsSub (pat cs : List Char) : Bool := (dropThrough pat cs).isSome

/-- Python `str.replace`: replace all non-overlapping occurrences, scanning
left to right. -/
def replaceAllAux (pat rep : List Char) : ℕ → List Char → List Char
  | 0, cs => cs
  | fuel + 1, cs =>
    if !pat.isEmpty && pat.isPrefixOf cs then
      rep ++ replaceAllAux pat rep fuel (cs.drop pat.length)
    else
      match cs with
      | [] => []
      | c :: cs' => c :: replaceAllAux pat rep fuel cs'

/-- Python `str.replace` (the fuel `cs.length` covers every step, since each
step consumes at least one character). -/
def replaceAll (pat rep cs : List Char) : List Char := replaceAllAux pat rep cs.length cs

/-- `VideoAnalyzer._get_thumbnail_url`: derived only for HLS locators. -/
def getThumbnailUrl (url : String) : Option String :=
  if containsSub ".m3u8".data url.data then
    some (String.mk (replaceAll ".m3u8".data "_thumb.jpg".data
          (replaceAll "/stream.m3u8".data "/thumbnail.jpg".data url.data)))
  else none

/-- The analysis request (`analyze`'s arguments). -/
structure Request where
  videoUrl : String
  duration : Option ℤ
  categoryId : Option String
  thumbnailUrl : Option String

/-- Python `if not thumbnail_url:` — an absent or empty locator triggers
derivation from the video locator. -/
def resolveThumb (req : Request) : Option String :=
  match req.thumbnailUrl with
  | some t => if t = "" then getThumbnailUrl req.videoUrl else some t
  | none => getThumbnailUrl req.videoUrl

/-- Python truthiness of an optional string. -/
def strTruthyO : Option String → Bool
  | none => false
  | some s => !(s == "")

/-- The `try` body of `VideoAnalyzer.analyze`: thumbnail resolution, then the
vision path when a client and a thumbnail are available, else the fallback.
`hasClient` is `get_openai_client() is not None` (the `OPENAI_API_KEY`
environment configuration). -/
def analyzeBody (hasClient : Bool) (req : Request) (o : VisionOutcome) (noise : Noise) :
    Except PyErr Assessment :=
  if hasClient && strTruthyO (resolveThumb req) then
    Except.ok (analyzeWithOpenai o noise)
  else
    Except.ok (fallbackAnalysis noise req.duration)

/-- `VideoAnalyzer.analyze`: the outer `except` converts any escaping
exception to `_fallback_analysis(video_url, duration)`. -/
def analyze (hasClient : Bool) (req : Request) (o : VisionOutcome) (noise : Noise) :
    Assessment :=
  match analyzeBody hasClient req o noise with
  | Except.ok r => r
  | Except.error _ => fallbackAnalysis noise req.duration

/-! ### The audio analyzer (`analyze_audio`)

The librosa feature extraction is an external capability; the embedding takes
the extracted statistics as inputs.  `numpy.std` of the pitch values and beat
intervals is irrational in general, so the two standard deviations are
explicit arguments, tied to the lists by `IsStd` in the theorems. -/

/-- Features extracted by librosa for one waveform. -/
structure AudioFeatures where
  pitchValues : List ℚ
  beatIntervals : List ℚ
  centroidMean : ℚ
  rmsStd : ℚ

/-- Scores returned by `analyze_audio`. -/
structure AudioResult where
  pitchAccuracy : ℚ
  rhythmScore : ℚ
  clarity : ℚ
  dynamics : ℚ
  expression : ℚ

/-- `VideoAnalyzer.analyze_audio`: `none` is the decode/extraction-failure
branch with its fixed default bundle; `σp`/`σb` stand for the numpy standard
deviations of the pitch values and beat intervals. -/
def analyzeAudio (feat : Option AudioFeatures) (σp σb : ℚ) : AudioResult :=
  match feat with
  | none => ⟨75, 75, 75, 70, 145/2⟩
  | some f =>
    let pitchStability : ℚ := if 0 < f.pitchValues.length then 100 - min 100 (σp / 10) else 70
    let rhythm : ℚ := if 0 < f.beatIntervals.length then 100 - min 100 (σb * 50) else 70
    let clarity := min 100 (50 + f.centroidMean / 100)
    let dynamics := min 100 (50 + f.rmsStd * 200)
    ⟨pyRound1 pitchStability, pyRound1 rhythm, pyRound1 clarity, pyRound1 dynamics,
     pyRound1 ((pitchStability + dynamics) / 2)⟩

/-! ### The movement analyzer (`analyze_movement`)

A frame is `none` when MediaPipe detects no pose, otherwise the flattened
`[x, y, z]` landmark array (the pose model emits a fixed landmark count, so
consecutive detected frames have equal arity).  `numpy.std` of the movement
sequence is again an explicit argument. -/

/-- Mean absolute coordinate displacement between two consecutive detected
frames: `np.mean(np.abs(landmarks - prev_landmarks))`. -/
def meanAbsDiff (a b : List ℚ) : ℚ :=
  listMean ((a.zip b).map fun p => |p.1 - p.2|)

/-- The movement sequence accumulated by the frame loop: one entry per
consecutive pair of detected frames. -/
def movementSeqGo : List (Option (List ℚ)) → Option (List ℚ) → List ℚ
  | [], _ => []
  | none :: rest, prev => movementSeqGo rest prev
  | some f :: rest, none => movementSeqGo rest (some f)
  | some f :: rest, some p => meanAbsDiff f p :: movementSeqGo rest (some f)

/-- The movement sequence of a frame list, with the 30-frame cap. -/
def movementSeq (frames : List (Option (List ℚ))) : List ℚ :=
  movementSeqGo (frames.take 30) none

/-- Scores returned by `analyze_movement`. -/
structure MovementResult where
  fluidity : ℚ
  precision : ℚ
  rhythmSync : ℚ
  creativity : ℚ

/-- `VideoAnalyzer.analyze_movement`: an empty movement sequence (no two
detected frames, which is also the observable behavior of the extraction
failure branch) yields the fixed default bundle; `σ` stands for
`np.std(movement_scores)`. -/
def analyzeMovement (frames : List (Option (List ℚ))) (σ : ℚ) : MovementResult :=
  match movementSeq frames with
  | [] => ⟨75, 75, 75, 70⟩
  | m :: ms =>
    let avgMovement := listMean (m :: ms)
    let fluidity := min 100 (50 + avgMovement * 500)
    let precision := max 0 (100 - σ * 1000)
    ⟨pyRound1 fluidity, pyRound1 precision, pyRound1 ((fluidity + precision) / 2),
     pyRound1 (fluidity * 0.8 + σ * 200)⟩

/-! ### The expression analyzer (`analyze_expression`)

A frame is `none` when no face is detected; a detected face is recorded by
the four landmark ordinates the code reads (indices 13, 14, 159, 145). -/

/-- The face-mesh ordinates used by the expression metrics. -/
structure FaceLandmarks where
  y13 : ℚ
  y14 : ℚ
  y159 : ℚ
  y145 : ℚ

/-- Per-frame expression intensity: `(mouth_height + eye_openness) * 100`. -/
def intensity (f : FaceLandmarks) : ℚ :=
  (|f.y13 - f.y14| + |f.y159 - f.y145|) * 100

/-- Scores returned by `analyze_expression`. -/
structure ExpressionResult where
  emotionRange : ℚ
  authenticity : ℚ
  cameraPresence : ℚ

/-- Greatest element of a nonempty list (`np.max`). -/
def listMaxOf (x : ℚ) (xs : List ℚ) : ℚ := xs.foldl max x

/-- Least element of a nonempty list (`np.min`). -/
def listMinOf (x : ℚ) (xs : List ℚ) : ℚ := xs.foldl min x

/-- `VideoAnalyzer.analyze_expression` with the 20-frame cap; no detected
face (also the observable behavior of the extraction failure branch) yields
the fixed default bundle. -/
def analyzeExpression (frames : List (Option FaceLandmarks)) : ExpressionResult :=
  match ((frames.take 20).filterMap id).map intensity with
  | [] => ⟨75, 78, 75⟩
  | e :: es =>
    let avgExpression := listMean (e :: es)
    let exprRange := listMaxOf e es - listMinOf e es
    ⟨pyRound1 (min 100 (50 + exprRange * 10)),
     pyRound1 (min 100 (60 + avgExpression * 2)),
     pyRound1 (min 100 (55 + avgExpression * 1.5 + exprRange * 5))⟩

/-! ### Well-formedness predicates for returned structures -/

/-- Structural validity of an assessment: the four required scores are
present, and every present numeric field is a valid one-decimal score in
`[0, 100]`. -/
def structValidB (a : Assessment) : Bool :=
  a.performanceScore.isSome && a.expressionScore.isSome &&
  a.qualityScore.isSome && a.timingScore.isSome &&
  validOptScoreB a.performanceScore && validOptScoreB a.expressionScore &&
  validOptScoreB a.qualityScore && validOptScoreB a.timingScore &&
  validOptScoreB a.vocalScore && validOptScoreB a.movementScore

/-- Every present numeric field of an assessment is a valid one-decimal score
in `[0, 100]` (without the presence requirement). -/
def presentValidB (a : Assessment) : Bool :=
  validOptScoreB a.performanceScore && validOptScoreB a.expressionScore &&
  validOptScoreB a.qualityScore && validOptScoreB a.timingScore &&
  validOptScoreB a.vocalScore && validOptScoreB a.movementScore

/-- The category tags are a nonempty array of strings. -/
def tagsValidB : Json → Bool
  | Json.arr xs =>
    !xs.isEmpty && xs.all (fun j => match j with | Json.str _ => true | _ => false)
  | _ => false

/-- The payload keys given documented defaults by `_analyze_with_openai`. -/
def requiredKeys : List String :=
  ["performanceScore", "expressionScore", "qualityScore", "timingScore"]

/-- Whether a `dict.get` result is anything other than an explicit `null`. -/
def notNullO : Option Json → Bool
  | some Json.null => false
  | _ => true

/-- No required field of the decoded payload is bound to `null`. -/
def requiredNonNullB (fields : List (String × Json)) : Bool :=
  requiredKeys.all fun k => notNullO (pyGet fields k)

/-- A vision outcome is benign when, if it decodes to an object payload, no
required field of that payload is bound to `null`. -/
def outcomeBenignB : VisionOutcome → Bool
  | VisionOutcome.netFail => true
  | VisionOutcome.ok t =>
    match jsonDecodeCL (extractContentCL t.data) with
    | some (Json.obj fields) => requiredNonNullB fields
    | _ => true

/-! ### Concrete inputs used by witnesses and counterexamples -/

/-- Wrap response text in a fenced code block with the `json` tag. -/
def fenceWrap (t : String) : String := "```json\n" ++ t ++ "\n```"

/-- Response text with no structured payload at all. -/
def respNoPayload : String := "The performance was great!"

/-- Response payload binding the required `performanceScore` to `null`. -/
def respNullPerf : String := "\x7b\"performanceScore\": null\x7d"

/-- Response payload with an explicitly empty `categoryTags` array. -/
def respEmptyTags : String := "\x7b\"categoryTags\": []\x7d"

/-- Response text containing two separate objects: the greedy span covers
both, and decoding it fails. -/
def respTwoObjects : String := "\x7b\"a\":1\x7d no \x7b\"b\":2\x7d"

/-- A request carrying an explicit thumbnail locator. -/
def reqThumb : Request := ⟨"http://cdn/v.mp4", some 60, none, some "http://cdn/t.jpg"⟩

/-- Landmark frames whose movement sequence is `[0, 1]`: three detected
single-point frames at coordinates `0`, `0`, `1`. -/
def cexFrames : List (Option (List ℚ)) := [some [0], some [0], some [1]]

/-! ## Lemmas: rounding, clamping and score well-formedness -/

theorem roundHalfEven_mem (x : ℚ) :
    roundHalfEven x = ⌊x⌋ ∨ roundHalfEven x = ⌊x⌋ + 1 := by
  unfold roundHalfEven
  dsimp only
  split
  · exact Or.inl rfl
  · split
    · exact Or.inr rfl
    · split
      · exact Or.inl rfl
      · exact Or.inr rfl

theorem le_roundHalfEven {a : ℤ} {x : ℚ} (h : (a : ℚ) ≤ x) :
    a ≤ roundHalfEven x := by
  have hf : a ≤ ⌊x⌋ := Int.le_floor.mpr h
  rcases roundHalfEven_mem x with h' | h' <;> omega

theorem roundHalfEven_le {b : ℤ} {x : ℚ} (h : x ≤ (b : ℚ)) :
    roundHalfEven x ≤ b := by
  have hfb : ⌊x⌋ ≤ b := by
    have := Int.floor_le_floor h
    simpa using this
  unfold roundHalfEven
  dsimp only
  split
  · exact hfb
  · rename_i hlt
    push_neg at hlt
    split
    · rename_i hgt
      have hx : (⌊x⌋ : ℚ) < x := by linarith [hgt]
      have : (⌊x⌋ : ℚ) < (b : ℚ) := lt_of_lt_of_le hx h
      have : ⌊x⌋ < b := by exact_mod_cast this
      omega
    · split
      · exact hfb
      · rename_i hgt' _
        push_neg at hgt'
        have hhalf : x - (⌊x⌋ : ℚ) = 1/2 := le_antisymm hgt' hlt
        have hx : (⌊x⌋ : ℚ) < x := by linarith
        have : (⌊x⌋ : ℚ) < (b : ℚ) := lt_of_lt_of_le hx h
        have : ⌊x⌋ < b := by exact_mod_cast this
        omega

theorem roundHalfEven_intCast (n : ℤ) : roundHalfEven (n : ℚ) = n := by
  unfold roundHalfEven
  dsimp only
  rw [Int.floor_intCast]
  norm_num

theorem pyRound1_oneDec (x : ℚ) : (10 * pyRound1 x).den = 1 := by
  unfold pyRound1
  have : 10 * ((roundHalfEven (x * 10) : ℚ) / 10) = (roundHalfEven (x * 10) : ℚ) := by
    field_simp
  rw [this]
  exact Rat.den_intCast _

theorem pyRound1_ge {a : ℤ} {x : ℚ} (h : (a : ℚ) ≤ x) : (a : ℚ) ≤ pyRound1 x := by
  unfold pyRound1
  have h10 : ((10 * a : ℤ) : ℚ) ≤ x * 10 := by push_cast; linarith
  have := le_roundHalfEven h10
  have hc : ((10 * a : ℤ) : ℚ) ≤ (roundHalfEven (x * 10) : ℚ) := by exact_mod_cast this
  push_cast at hc
  linarith

theorem pyRound1_le {b : ℤ} {x : ℚ} (h : x ≤ (b : ℚ)) : pyRound1 x ≤ (b : ℚ) := by
  unfold pyRound1
  have h10 : x * 10 ≤ ((10 * b : ℤ) : ℚ) := by push_cast; linarith
  have := roundHalfEven_le h10
  have hc : (roundHalfEven (x * 10) : ℚ) ≤ ((10 * b : ℤ) : ℚ) := by exact_mod_cast this
  push_cast at hc
  linarith

theorem pyRound1_intCast (n : ℤ) : pyRound1 (n : ℚ) = n := by
  unfold pyRound1
  have : (n : ℚ) * 10 = ((10 * n : ℤ) : ℚ) := by push_cast; ring
  rw [this, roundHalfEven_intCast]
  push_cast
  ring

theorem validScoreB_pyRound1 {x : ℚ} (h0 : 0 ≤ x) (h1 : x ≤ 100) :
    validScoreB (pyRound1 x) = true := by
  unfold validScoreB
  have hg : (0 : ℚ) ≤ pyRound1 x := by
    have := pyRound1_ge (a := 0) (x := x) (by exact_mod_cast h0)
    simpa using this
  have hl : pyRound1 x ≤ (100 : ℚ) := by
    have := pyRound1_le (b := 100) (x := x) (by exact_mod_cast h1)
    simpa using this
  simp [hg, hl, pyRound1_oneDec]

theorem clamp0100_nonneg (x : ℚ) : 0 ≤ clamp0100 x := le_max_left _ _

theorem clamp0100_le (x : ℚ) : clamp0100 x ≤ 100 := by
  unfold clamp0100
  have h1 : min 100 x ≤ (100 : ℚ) := min_le_left _ _
  exact max_le (by norm_num) h1

theorem clamp0100_eq_self {x : ℚ} (h0 : 0 ≤ x) (h1 : x ≤ 100) : clamp0100 x = x := by
  unfold clamp0100
  rw [min_eq_right h1, max_eq_right h0]

theorem validScoreB_pyRound1_clamp (x : ℚ) :
    validScoreB (pyRound1 (clamp0100 x)) = true :=
  validScoreB_pyRound1 (clamp0100_nonneg x) (clamp0100_le x)

theorem validScoreB_clamp_pyRound1 (x : ℚ) :
    validScoreB (clamp0100 (pyRound1 x)) = true := by
  unfold validScoreB
  have hg : (0 : ℚ) ≤ clamp0100 (pyRound1 x) := clamp0100_nonneg _
  have hl : clamp0100 (pyRound1 x) ≤ 100 := clamp0100_le _
  have hden : (10 * clamp0100 (pyRound1 x)).den = 1 := by
    unfold clamp0100
    rcases le_total (100 : ℚ) (pyRound1 x) with h | h
    · rw [min_eq_left h]
      norm_num
    · rw [min_eq_right h]
      rcases le_total (0 : ℚ) (pyRound1 x) with h' | h'
      · rw [max_eq_right h']
        exact pyRound1_oneDec x
      · rw [max_eq_left h']
        norm_num
  simp [hg, hl, hden]

theorem listMean_nonneg {xs : List ℚ} (h : ∀ x ∈ xs, 0 ≤ x) : 0 ≤ listMean xs := by
  unfold listMean
  have hs : 0 ≤ xs.sum := List.sum_nonneg h
  have hl : (0 : ℚ) ≤ (xs.length : ℚ) := by positivity
  exact div_nonneg hs hl

theorem JNum.toRat_ofNat (m : ℕ) : (JNum.ofNat m).toRat = (m : ℚ) := by
  simp [JNum.toRat, JNum.ofNat]

theorem JNum.toRat_eq_zero_iff (n : JNum) : n.toRat = 0 ↔ n.mant = 0 := by
  have h1 : ((10 : ℚ) ^ n.ex) ≠ 0 := zpow_ne_zero _ (by norm_num)
  have h2 : ((10 : ℚ) ^ n.scale) ≠ 0 := by positivity
  cases hn : n.neg <;>
    simp [JNum.toRat, hn, mul_eq_zero, div_eq_zero_iff, h1, h2, Nat.cast_eq_zero]

/-! ## Lemmas: score normalization and record well-formedness -/

theorem validScoreB_seventy : validScoreB 70 = true := by
  unfold validScoreB
  have h1 : decide ((0 : ℚ) ≤ 70) = true := by norm_num
  have h2 : decide ((70 : ℚ) ≤ 100) = true := by norm_num
  have h3 : ((10 * (70 : ℚ)).den == 1) = true := by
    have : (10 : ℚ) * 70 = ((700 : ℤ) : ℚ) := by norm_num
    rw [this, Rat.den_intCast]
    rfl
  rw [h1, h2, h3]
  rfl

theorem normScore_num (n : JNum) :
    normScore (Json.num n) = some (pyRound1 (clamp0100 n.toRat)) := rfl

theorem validOptScoreB_normScore (v : Json) : validOptScoreB (normScore v) = true := by
  cases v with
  | null => rfl
  | num n =>
    rw [normScore_num]
    show validScoreB (pyRound1 (clamp0100 n.toRat)) = true
    exact validScoreB_pyRound1_clamp _
  | jbool b =>
    show validScoreB (pyRound1 (clamp0100 (if b then 1 else 0))) = true
    exact validScoreB_pyRound1_clamp _
  | str s => exact validScoreB_seventy
  | arr xs => exact validScoreB_seventy
  | obj fs => exact validScoreB_seventy

theorem validOptScoreB_normScoreO (o : Option Json) :
    validOptScoreB (normScoreO o) = true := by
  cases o with
  | none => rfl
  | some v => exact validOptScoreB_normScore v

theorem normScore_isSome {v : Json} (h : v ≠ Json.null) :
    (normScore v).isSome = true := by
  cases v with
  | null => exact absurd rfl h
  | num n => rfl
  | jbool b => rfl
  | str s => rfl
  | arr xs => rfl
  | obj fs => rfl

theorem getD_ne_null {o : Option Json} {d : Json} (h : notNullO o = true)
    (hd : d ≠ Json.null) : o.getD d ≠ Json.null := by
  cases o with
  | none => simpa using hd
  | some v =>
    cases v <;> simp_all [notNullO]

theorem structValidB_fallback (noise : Noise) (dur : Option ℤ) :
    structValidB (fallbackAnalysis noise dur) = true := by
  unfold structValidB fallbackAnalysis
  simp [validOptScoreB, validScoreB_clamp_pyRound1]

theorem presentValidB_of_structValidB {a : Assessment} (h : structValidB a = true) :
    presentValidB a = true := by
  unfold structValidB at h
  unfold presentValidB
  simp only [Bool.and_eq_true] at h ⊢
  tauto

theorem presentValidB_buildResult (fields : List (String × Json)) :
    presentValidB (buildResult fields) = true := by
  unfold presentValidB buildResult
  dsimp only
  simp only [Bool.and_eq_true]
  refine ⟨⟨⟨⟨⟨?_, ?_⟩, ?_⟩, ?_⟩, ?_⟩, ?_⟩
  · exact validOptScoreB_normScore _
  · exact validOptScoreB_normScore _
  · exact validOptScoreB_normScore _
  · exact validOptScoreB_normScore _
  · split
    · exact validOptScoreB_normScoreO _
    · rfl
  · split
    · exact validOptScoreB_normScoreO _
    · rfl

theorem structValidB_buildResult {fields : List (String × Json)}
    (h : requiredNonNullB fields = true) :
    structValidB (buildResult fields) = true := by
  have hall := h
  unfold requiredNonNullB requiredKeys at hall
  simp only [List.all_cons, List.all_nil, Bool.and_eq_true, and_true] at hall
  obtain ⟨h1, h2, h3, h4⟩ := hall
  have hs1 : (normScore (pyGetD fields "performanceScore" (Json.num (JNum.ofNat 70)))).isSome
      = true :=
    normScore_isSome (getD_ne_null h1 (by intro hc; cases hc))
  have hs2 : (normScore (pyGetD fields "expressionScore" (Json.num (JNum.ofNat 70)))).isSome
      = true :=
    normScore_isSome (getD_ne_null h2 (by intro hc; cases hc))
  have hs3 : (normScore (pyGetD fields "qualityScore" (Json.num (JNum.ofNat 75)))).isSome
      = true :=
    normScore_isSome (getD_ne_null h3 (by intro hc; cases hc))
  have hs4 : (normScore (pyGetD fields "timingScore" (Json.num (JNum.ofNat 70)))).isSome
      = true :=
    normScore_isSome (getD_ne_null h4 (by intro hc; cases hc))
  have hp := presentValidB_buildResult fields
  unfold presentValidB at hp
  unfold structValidB buildResult
  dsimp only
  unfold buildResult at hp
  dsimp only at hp
  simp only [Bool.and_eq_true] at hp ⊢
  exact ⟨⟨⟨⟨⟨⟨⟨⟨⟨hs1, hs2⟩, hs3⟩, hs4⟩, hp.1.1.1.1.1⟩, hp.1.1.1.1.2⟩, hp.1.1.1.2⟩,
    hp.1.1.2⟩, hp.1.2⟩, hp.2⟩

theorem visionBodyE_ok_inv {o : VisionOutcome} {r : Assessment}
    (h : visionBodyE o = Except.ok r) : ∃ fields, r = buildResult fields := by
  cases o with
  | netFail => exact absurd h (by simp [visionBodyE])
  | ok t =>
    simp only [visionBodyE] at h
    rcases hj : jsonDecodeCL (extractContentCL t.data) with _ | j
    · rw [hj] at h
      exact absurd h (by simp)
    · rw [hj] at h
      cases j with
      | obj fields =>
        refine ⟨fields, ?_⟩
        simpa using h.symm
      | null => exact absurd h (by simp)
      | jbool b => exact absurd h (by simp)
      | num n => exact absurd h (by simp)
      | str s => exact absurd h (by simp)
      | arr xs => exact absurd h (by simp)

theorem presentValidB_analyzeWithOpenai (o : VisionOutcome) (noise : Noise) :
    presentValidB (analyzeWithOpenai o noise) = true := by
  unfold analyzeWithOpenai
  rcases h : visionBodyE o with e | r
  · exact presentValidB_of_structValidB (structValidB_fallback noise none)
  · obtain ⟨fields, hf⟩ := visionBodyE_ok_inv h
    rw [hf]
    exact presentValidB_buildResult fields

theorem analyze_eq_branches (hc : Bool) (req : Request) (o : VisionOutcome) (noise : Noise) :
    analyze hc req o noise =
      if hc && strTruthyO (resolveThumb req) then analyzeWithOpenai o noise
      else fallbackAnalysis noise req.duration := by
  unfold analyze analyzeBody
  by_cases hb : (hc && strTruthyO (resolveThumb req)) = true <;> simp [hb]

theorem structValidB_analyzeWithOpenai_of_benign {o : VisionOutcome} (noise : Noise)
    (hben : outcomeBenignB o = true) :
    structValidB (analyzeWithOpenai o noise) = true := by
  cases o with
  | netFail =>
    show structValidB (fallbackAnalysis noise none) = true
    exact structValidB_fallback noise none
  | ok t =>
    unfold analyzeWithOpenai
    simp only [visionBodyE]
    simp only [outcomeBenignB] at hben
    rcases hj : jsonDecodeCL (extractContentCL t.data) with _ | j
    · exact structValidB_fallback noise none
    · rw [hj] at hben
      cases j with
      | obj fields => exact structValidB_buildResult hben
      | null => exact structValidB_fallback noise none
      | jbool b => exact structValidB_fallback noise none
      | num n => exact structValidB_fallback noise none
      | str s => exact structValidB_fallback noise none
      | arr xs => exact structValidB_fallback noise none

theorem validScoreB_eq_true_iff (q : ℚ) :
    validScoreB q = true ↔ (0 ≤ q ∧ q ≤ 100 ∧ (10 * q).den = 1) := by
  unfold validScoreB
  simp [Bool.and_eq_true, decide_eq_true_eq, and_assoc]

theorem pyRound1_eq_low {x : ℚ} {n : ℤ} (h1 : ⌊x * 10⌋ = n) (h2 : x * 10 - (n : ℚ) < 1/2) :
    pyRound1 x = (n : ℚ) / 10 := by
  unfold pyRound1 roundHalfEven
  dsimp only
  rw [h1, if_pos h2]

/-! ## Claim C4 -/

/-- Claim C4: `_normalize_score` maps an absent value to absent and every
numeric value `v` to `clamp(v, 0, 100)` rounded to one decimal; in
particular `normalize(None) = None`, `normalize(-5) = 0`,
`normalize(150) = 100` and `normalize(72.34) = 72.3`. -/
theorem C4_normalize_score :
    normScoreO none = none
    ∧ normScore Json.null = none
    ∧ (∀ n : JNum, normScore (Json.num n) = some (pyRound1 (clamp0100 n.toRat)))
    ∧ normScore (Json.num ⟨true, 5, 0, 0⟩) = some 0
    ∧ normScore (Json.num (JNum.ofNat 150)) = some 100
    ∧ normScore (Json.num ⟨false, 7234, 2, 0⟩) = some (723 / 10) := by
  refine ⟨rfl, rfl, fun n => normScore_num n, ?_, ?_, ?_⟩
  · rw [normScore_num]
    have hv : (JNum.mk true 5 0 0).toRat = -5 := by
      simp [JNum.toRat]
    rw [hv]
    have hc : clamp0100 (-5) = 0 := by
      unfold clamp0100
      rw [min_eq_right (by norm_num : (-5 : ℚ) ≤ 100), max_eq_left (by norm_num : (-5 : ℚ) ≤ 0)]
    rw [hc]
    have h0 : pyRound1 (0 : ℚ) = 0 := by
      have := pyRound1_intCast 0
      simpa using this
    rw [h0]
  · rw [normScore_num]
    have hv : (JNum.ofNat 150).toRat = 150 := by
      rw [JNum.toRat_ofNat]
      norm_num
    rw [hv]
    have hc : clamp0100 (150 : ℚ) = 100 := by
      unfold clamp0100
      rw [min_eq_left (by norm_num : (100 : ℚ) ≤ 150), max_eq_right (by norm_num : (0 : ℚ) ≤ 100)]
    rw [hc]
    have h100 : pyRound1 (100 : ℚ) = 100 := by
      have := pyRound1_intCast 100
      simpa using this
    rw [h100]
  · rw [normScore_num]
    have hv : (JNum.mk false 7234 2 0).toRat = 7234 / 100 := by
      simp [JNum.toRat]
      norm_num
    rw [hv]
    have hc : clamp0100 ((7234 : ℚ) / 100) = 7234 / 100 :=
      clamp0100_eq_self (by norm_num) (by norm_num)
    rw [hc]
    have hr : pyRound1 ((7234 : ℚ) / 100) = ((723 : ℤ) : ℚ) / 10 := by
      refine pyRound1_eq_low ?_ ?_
      · norm_num [Int.floor_eq_iff]
      · norm_num
    rw [hr]
    norm_num

/-! ## Claim C1 -/

/-- Claim C1 (amended): for every configuration, request, external-call
outcome and noise draw, `analyze` never raises (its `try` body returns the
result normally), every vision-path failure is converted inside the call to
the heuristic fallback result, and the returned assessment is structurally
valid whenever the decoded payload does not bind a required score field to
an explicit `null` (the unamended claim fails on such payloads, see the
counterexample). -/
theorem C1_analyze_total (hasClient : Bool) (req : Request) (o : VisionOutcome)
    (noise : Noise) :
    analyzeBody hasClient req o noise = Except.ok (analyze hasClient req o noise)
    ∧ (∀ e, visionBodyE o = Except.error e →
        analyzeWithOpenai o noise = fallbackAnalysis noise none)
    ∧ (outcomeBenignB o = true →
        structValidB (analyze hasClient req o noise) = true) := by
  refine ⟨?_, ?_, ?_⟩
  · unfold analyze analyzeBody
    by_cases hb : (hasClient && strTruthyO (resolveThumb req)) = true <;> simp [hb]
  · intro e he
    unfold analyzeWithOpenai
    rw [he]
  · intro hben
    rw [analyze_eq_branches]
    split
    · exact structValidB_analyzeWithOpenai_of_benign noise hben
    · exact structValidB_fallback noise req.duration

/-- Witness for C1 at a concrete degraded condition: vision configured,
thumbnail supplied, external call failing. -/
theorem C1_witness :
    analyzeBody true reqThumb VisionOutcome.netFail noiseZero
      = Except.ok (analyze true reqThumb VisionOutcome.netFail noiseZero)
    ∧ analyzeWithOpenai VisionOutcome.netFail noiseZero = fallbackAnalysis noiseZero none
    ∧ structValidB (analyze true reqThumb VisionOutcome.netFail noiseZero) = true := by
  obtain ⟨h1, h2, h3⟩ := C1_analyze_total true reqThumb VisionOutcome.netFail noiseZero
  exact ⟨h1, h2 PyErr.upstream rfl, h3 rfl⟩

/-- Counterexample to C1 as stated: a successful external call whose decoded
payload binds `performanceScore` to `null` makes `analyze` return an
assessment whose required `performanceScore` is absent, which is not a
structurally valid `PerformanceAssessment`. -/
theorem C1_cex :
    (analyze true reqThumb (VisionOutcome.ok respNullPerf) noiseZero).performanceScore = none
    ∧ structValidB (analyze true reqThumb (VisionOutcome.ok respNullPerf) noiseZero) = false :=
  ⟨rfl, rfl⟩

/-! ## Claims C6 and C7: the heuristic scorer -/

theorem perf_eval (noise : Noise) (dur : Option ℤ) :
    (fallbackAnalysis noise dur).performanceScore
      = some (clamp0100 (pyRound1 (adjustedBase noise dur))) := rfl

theorem clampRound_eq_self_int {x : ℚ} (n : ℤ) (hx : x = (n : ℚ)) (h0 : 0 ≤ x)
    (h1 : x ≤ 100) : clamp0100 (pyRound1 x) = x := by
  rw [hx, pyRound1_intCast]
  exact clamp0100_eq_self (hx ▸ h0) (hx ▸ h1)

/-- Claim C6 (amended): with the noise source pinned to zero, durations above
120 score exactly 75 = 72 + 3, nonzero durations below 15 score exactly
70 = 72 - 2, durations in [15, 120] score the unadjusted 72, and
`score(150) - score(60) = 3`.  The amendment: a duration of exactly `0` is
treated as absent (Python `if duration:`), so it gets no `-2` adjustment
even though it is below 15 (see the counterexample). -/
theorem C6_duration_adjustment :
    (∀ d : ℤ, 120 < d →
      (fallbackAnalysis noiseZero (some d)).performanceScore = some 75)
    ∧ (∀ d : ℤ, d < 15 → d ≠ 0 →
      (fallbackAnalysis noiseZero (some d)).performanceScore = some 70)
    ∧ (∀ d : ℤ, 15 ≤ d → d ≤ 120 →
      (fallbackAnalysis noiseZero (some d)).performanceScore = some 72)
    ∧ (fallbackAnalysis noiseZero none).performanceScore = some 72
    ∧ (∀ p q : ℚ,
        (fallbackAnalysis noiseZero (some 150)).performanceScore = some p →
        (fallbackAnalysis noiseZero (some 60)).performanceScore = some q → p - q = 3) := by
  have hlong : ∀ d : ℤ, 120 < d →
      (fallbackAnalysis noiseZero (some d)).performanceScore = some 75 := by
    intro d hd
    have h0 : d ≠ 0 := by omega
    rw [perf_eval]
    have hadj : adjustedBase noiseZero (some d) = 75 := by
      simp [adjustedBase, baseScore, noiseZero, h0, hd]
      norm_num
    rw [hadj, clampRound_eq_self_int 75 (by norm_num) (by norm_num) (by norm_num)]
  have hshort : ∀ d : ℤ, d < 15 → d ≠ 0 →
      (fallbackAnalysis noiseZero (some d)).performanceScore = some 70 := by
    intro d hd h0
    rw [perf_eval]
    have hd' : ¬ (120 < d) := by omega
    have hadj : adjustedBase noiseZero (some d) = 70 := by
      simp [adjustedBase, baseScore, noiseZero, h0, hd, hd']
      norm_num
    rw [hadj, clampRound_eq_self_int 70 (by norm_num) (by norm_num) (by norm_num)]
  have hmid : ∀ d : ℤ, 15 ≤ d → d ≤ 120 →
      (fallbackAnalysis noiseZero (some d)).performanceScore = some 72 := by
    intro d hd1 hd2
    have h0 : d ≠ 0 := by omega
    have hn1 : ¬ (120 < d) := by omega
    have hn2 : ¬ (d < 15) := by omega
    rw [perf_eval]
    have hadj : adjustedBase noiseZero (some d) = 72 := by
      simp [adjustedBase, baseScore, noiseZero, h0, hn1, hn2]
    rw [hadj, clampRound_eq_self_int 72 (by norm_num) (by norm_num) (by norm_num)]
  refine ⟨hlong, hshort, hmid, ?_, ?_⟩
  · rw [perf_eval]
    have hadj : adjustedBase noiseZero none = 72 := by
      simp [adjustedBase, baseScore, noiseZero]
    rw [hadj, clampRound_eq_self_int 72 (by norm_num) (by norm_num) (by norm_num)]
  · intro p q hp hq
    have h150 := hlong 150 (by norm_num)
    have h60 := hmid 60 (by norm_num) (by norm_num)
    rw [h150] at hp
    rw [h60] at hq
    have hp' : p = 75 := by injection hp.symm
    have hq' : q = 72 := by injection hq.symm
    rw [hp', hq']
    norm_num

/-- Witness for C6: concrete durations 150, 10 and 60. -/
theorem C6_witness :
    (fallbackAnalysis noiseZero (some 150)).performanceScore = some 75
    ∧ (fallbackAnalysis noiseZero (some 10)).performanceScore = some 70
    ∧ (fallbackAnalysis noiseZero (some 60)).performanceScore = some 72
    ∧ (75 : ℚ) - 72 = 3 := by
  obtain ⟨h1, h2, h3, _, h5⟩ := C6_duration_adjustment
  exact ⟨h1 150 (by norm_num), h2 10 (by norm_num) (by norm_num),
         h3 60 (by norm_num) (by norm_num),
         h5 75 72 (h1 150 (by norm_num)) (h3 60 (by norm_num) (by norm_num))⟩

/-- Counterexample to C6 as stated: `duration = 0` is below 15 seconds, yet
the score is the unadjusted 72, not 70. -/
theorem C6_cex :
    (fallbackAnalysis noiseZero (some 0)).performanceScore = some 72
    ∧ (72 : ℚ) ≠ 70 := by
  constructor
  · rw [perf_eval]
    have hadj : adjustedBase noiseZero (some 0) = 72 := by
      simp [adjustedBase, baseScore, noiseZero]
    rw [hadj, clampRound_eq_self_int 72 (by norm_num) (by norm_num) (by norm_num)]
  · norm_num

/-- Claim C7 (amended): the heuristic baseline is 72 plus a bounded noise
draw from `uniform(-5, 10)`, so the deviation from 72 always lies in
`[-5, 10]` — a bounded interval, but one that is not symmetric about zero
(see the counterexample). -/
theorem C7_baseline_noise (n : Noise) (h : noiseValidB n = true) :
    -5 ≤ baseScore n - 72 ∧ baseScore n - 72 ≤ 10 := by
  unfold noiseValidB at h
  simp only [Bool.and_eq_true, decide_eq_true_eq] at h
  unfold baseScore
  constructor <;> linarith [h.1.1.1.1.1.1.1, h.1.1.1.1.1.1.2]

/-- Witness for C7 at the extreme positive draw. -/
theorem C7_witness :
    -5 ≤ baseScore ⟨10, 0, 0, 0⟩ - 72 ∧ baseScore ⟨10, 0, 0, 0⟩ - 72 ≤ 10 := by
  refine C7_baseline_noise ⟨10, 0, 0, 0⟩ ?_
  simp [noiseValidB]
  norm_num

/-- Counterexample to C7 as stated: the attainable deviations are not
symmetric about zero — `+10` is a valid draw, but no valid draw attains
`-10`. -/
theorem C7_cex :
    ¬ (∀ x : ℚ, (∃ n, noiseValidB n = true ∧ baseScore n - 72 = x) →
        (∃ n, noiseValidB n = true ∧ baseScore n - 72 = -x)) := by
  intro hsym
  have hx : ∃ n, noiseValidB n = true ∧ baseScore n - 72 = 10 := by
    refine ⟨⟨10, 0, 0, 0⟩, ?_, ?_⟩
    · simp [noiseValidB]
      norm_num
    · unfold baseScore
      norm_num
  obtain ⟨n, hv, he⟩ := hsym 10 hx
  unfold noiseValidB at hv
  simp only [Bool.and_eq_true, decide_eq_true_eq] at hv
  unfold baseScore at he
  have : n.base = -10 := by linarith
  linarith [hv.1.1.1.1.1.1.1]

/-! ## Claims C5 and C10: field defaults and optional-field truthiness -/

theorem normScoreO_isSome_of_truthy {o : Option Json} (h : pyTruthyO o = true) :
    (normScoreO o).isSome = true := by
  cases o with
  | none => exact absurd h (by simp [pyTruthyO])
  | some v =>
    cases v with
    | null => exact absurd h (by simp [pyTruthyO, pyTruthy])
    | num n => rfl
    | jbool b => rfl
    | str s => rfl
    | arr xs => rfl
    | obj fs => rfl

theorem optField_eq_none_iff (o : Option Json) :
    (if pyTruthyO o then normScoreO o else none) = none ↔ pyTruthyO o = false := by
  cases htr : pyTruthyO o
  · simp [htr]
  · simp only [htr, if_true]
    have hs := normScoreO_isSome_of_truthy htr
    constructor
    · intro hn
      rw [hn] at hs
      simp at hs
    · intro hf
      exact absurd hf (by simp)

theorem optField_isSome (o : Option Json) :
    (if pyTruthyO o then normScoreO o else none).isSome = pyTruthyO o := by
  cases htr : pyTruthyO o
  · simp [htr]
  · simp [htr, normScoreO_isSome_of_truthy htr]

theorem clampRound70 : pyRound1 (clamp0100 ((JNum.ofNat 70).toRat)) = 70 := by
  rw [JNum.toRat_ofNat]
  have h : ((70 : ℕ) : ℚ) = ((70 : ℤ) : ℚ) := by push_cast; ring
  rw [h, clamp0100_eq_self (by norm_num) (by norm_num), pyRound1_intCast]
  norm_num

theorem clampRound75 : pyRound1 (clamp0100 ((JNum.ofNat 75).toRat)) = 75 := by
  rw [JNum.toRat_ofNat]
  have h : ((75 : ℕ) : ℚ) = ((75 : ℤ) : ℚ) := by push_cast; ring
  rw [h, clamp0100_eq_self (by norm_num) (by norm_num), pyRound1_intCast]
  norm_num

/-- Claim C5 (amended): every required field missing from the payload gets
its documented default (70/75/70/70) and then passes through the
normalizer; the optional `vocalScore`/`movementScore` are left unset exactly
when the payload value is FALSY in Python (null, absent, `0`, empty string,
`false`, empty collection) — not merely when it is null or absent — and a
truthy value is normalized, never defaulted (see the counterexample for the
falsy-but-non-null case `0`). -/
theorem C5_field_defaults (fields : List (String × Json)) :
    (pyGet fields "performanceScore" = none →
      (buildResult fields).performanceScore = some 70)
    ∧ (pyGet fields "expressionScore" = none →
      (buildResult fields).expressionScore = some 70)
    ∧ (pyGet fields "qualityScore" = none →
      (buildResult fields).qualityScore = some 75)
    ∧ (pyGet fields "timingScore" = none →
      (buildResult fields).timingScore = some 70)
    ∧ ((buildResult fields).vocalScore = none
        ↔ pyTruthyO (pyGet fields "vocalScore") = false)
    ∧ (pyTruthyO (pyGet fields "vocalScore") = true →
      (buildResult fields).vocalScore = normScoreO (pyGet fields "vocalScore"))
    ∧ ((buildResult fields).movementScore = none
        ↔ pyTruthyO (pyGet fields "movementScore") = false)
    ∧ (pyTruthyO (pyGet fields "movementScore") = true →
      (buildResult fields).movementScore = normScoreO (pyGet fields "movementScore")) := by
  refine ⟨?_, ?_, ?_, ?_, ?_, ?_, ?_, ?_⟩
  · intro h
    show normScore (pyGetD fields "performanceScore" (Json.num (JNum.ofNat 70))) = some 70
    unfold pyGetD
    rw [h]
    show some (pyRound1 (clamp0100 ((JNum.ofNat 70).toRat))) = some 70
    rw [clampRound70]
  · intro h
    show normScore (pyGetD fields "expressionScore" (Json.num (JNum.ofNat 70))) = some 70
    unfold pyGetD
    rw [h]
    show some (pyRound1 (clamp0100 ((JNum.ofNat 70).toRat))) = some 70
    rw [clampRound70]
  · intro h
    show normScore (pyGetD fields "qualityScore" (Json.num (JNum.ofNat 75))) = some 75
    unfold pyGetD
    rw [h]
    show some (pyRound1 (clamp0100 ((JNum.ofNat 75).toRat))) = some 75
    rw [clampRound75]
  · intro h
    show normScore (pyGetD fields "timingScore" (Json.num (JNum.ofNat 70))) = some 70
    unfold pyGetD
    rw [h]
    show some (pyRound1 (clamp0100 ((JNum.ofNat 70).toRat))) = some 70
    rw [clampRound70]
  · exact optField_eq_none_iff (pyGet fields "vocalScore")
  · intro h
    show (if pyTruthyO (pyGet fields "vocalScore") then normScoreO (pyGet fields "vocalScore")
        else none) = _
    rw [if_pos h]
  · exact optField_eq_none_iff (pyGet fields "movementScore")
  · intro h
    show (if pyTruthyO (pyGet fields "movementScore")
        then normScoreO (pyGet fields "movementScore") else none) = _
    rw [if_pos h]

/-- Witness for C5: the empty payload takes every default and leaves the
optional fields unset. -/
theorem C5_witness :
    (buildResult []).performanceScore = some 70
    ∧ (buildResult []).qualityScore = some 75
    ∧ (buildResult []).vocalScore = none := by
  obtain ⟨h1, _, h3, _, h5, _, _, _⟩ := C5_field_defaults []
  exact ⟨h1 rfl, h3 rfl, h5.mpr rfl⟩

/-- Counterexample to C5 as stated: `vocalScore` bound to the number `0` is
present and non-null, yet the resulting field is unset. -/
theorem C5_cex :
    pyGet [("vocalScore", Json.num (JNum.ofNat 0))] "vocalScore"
      = some (Json.num (JNum.ofNat 0))
    ∧ some (Json.num (JNum.ofNat 0)) ≠ some Json.null
    ∧ (buildResult [("vocalScore", Json.num (JNum.ofNat 0))]).vocalScore = none := by
  refine ⟨rfl, ?_, rfl⟩
  simp

/-- Claim C10: in the vision path an optional score field is present in the
result exactly when the payload value is truthy; in particular a payload
binding `vocalScore` (or `movementScore`) to the number `0` leaves the field
unset rather than `0.0`. -/
theorem C10_optional_zero_unset (fields : List (String × Json)) :
    (∀ n : JNum, n.toRat = 0 →
      pyGet fields "vocalScore" = some (Json.num n) →
      (buildResult fields).vocalScore = none)
    ∧ (∀ n : JNum, n.toRat = 0 →
      pyGet fields "movementScore" = some (Json.num n) →
      (buildResult fields).movementScore = none)
    ∧ ((buildResult fields).vocalScore.isSome = pyTruthyO (pyGet fields "vocalScore"))
    ∧ ((buildResult fields).movementScore.isSome
        = pyTruthyO (pyGet fields "movementScore")) := by
  have hv : ∀ (key : String) (n : JNum), n.toRat = 0 →
      pyGet fields key = some (Json.num n) →
      (if pyTruthyO (pyGet fields key) then normScoreO (pyGet fields key) else none) = none := by
    intro key n hz hg
    have hmant : n.mant = 0 := (JNum.toRat_eq_zero_iff n).mp hz
    have htr : pyTruthyO (pyGet fields key) = false := by
      rw [hg]
      simp [pyTruthyO, pyTruthy, hmant]
    rw [if_neg (by rw [htr]; exact Bool.false_ne_true)]
  exact ⟨fun n hz hg => hv "vocalScore" n hz hg,
         fun n hz hg => hv "movementScore" n hz hg,
         optField_isSome (pyGet fields "vocalScore"),
         optField_isSome (pyGet fields "movementScore")⟩

/-- Witness for C10: a payload with `vocalScore` bound to `0`. -/
theorem C10_witness :
    (buildResult [("vocalScore", Json.num (JNum.ofNat 0))]).vocalScore = none
    ∧ (buildResult [("vocalScore", Json.num (JNum.ofNat 0))]).vocalScore.isSome
      = pyTruthyO (pyGet [("vocalScore", Json.num (JNum.ofNat 0))] "vocalScore") := by
  obtain ⟨h1, _, h3, _⟩ := C10_optional_zero_unset [("vocalScore", Json.num (JNum.ofNat 0))]
  refine ⟨h1 (JNum.ofNat 0) ?_ rfl, h3⟩
  rw [JNum.toRat_ofNat]
  norm_num

/-! ## Claim C9: category tags -/

/-- Claim C9 (amended): the heuristic path always returns the nonempty tag
list `["entertainer"]`, and the vision path returns that nonempty default
whenever the payload has no `categoryTags` key; but a payload-supplied
`categoryTags` value passes through unvalidated, so an explicit empty array
yields empty tags (see the counterexample). -/
theorem C9_category_tags :
    (∀ (noise : Noise) (dur : Option ℤ),
      (fallbackAnalysis noise dur).categoryTags = Json.arr [Json.str "entertainer"]
      ∧ tagsValidB (fallbackAnalysis noise dur).categoryTags = true)
    ∧ (∀ fields : List (String × Json), pyGet fields "categoryTags" = none →
      (buildResult fields).categoryTags = Json.arr [Json.str "entertainer"]
      ∧ tagsValidB (buildResult fields).categoryTags = true) := by
  constructor
  · intro noise dur
    exact ⟨rfl, rfl⟩
  · intro fields h
    have he : (buildResult fields).categoryTags = Json.arr [Json.str "entertainer"] := by
      show pyGetD fields "categoryTags" (Json.arr [Json.str "entertainer"]) = _
      unfold pyGetD
      rw [h]
      rfl
    refine ⟨he, ?_⟩
    rw [he]
    rfl

/-- Witness for C9: the fallback result and the empty payload. -/
theorem C9_witness :
    (fallbackAnalysis noiseZero none).categoryTags = Json.arr [Json.str "entertainer"]
    ∧ tagsValidB (buildResult []).categoryTags = true := by
  obtain ⟨h1, h2⟩ := C9_category_tags
  exact ⟨(h1 noiseZero none).1, (h2 [] rfl).2⟩

/-- Counterexample to C9 as stated: a payload with an explicitly empty
`categoryTags` array produces an assessment whose tags are empty, not a
nonempty collection of strings. -/
theorem C9_cex :
    (analyze true reqThumb (VisionOutcome.ok respEmptyTags) noiseZero).categoryTags
      = Json.arr []
    ∧ tagsValidB
        (analyze true reqThumb (VisionOutcome.ok respEmptyTags) noiseZero).categoryTags
      = false :=
  ⟨rfl, rfl⟩

/-! ## Claim C3: responses with no parseable payload -/

/-- Claim C3 (amended): for response text with no parseable structured
payload the code raises `json.JSONDecodeError` (its analogue of the spec's
`MalformedResponseError`) inside the scorer's try body — but the scorer
catches it itself and returns the heuristic fallback record to its caller,
rather than propagating the failure (see the counterexample for the
propagation part of the original claim). -/
theorem C3_malformed_response (t : String) (noise : Noise)
    (h : jsonDecodeCL (extractContentCL t.data) = none) :
    visionBodyE (VisionOutcome.ok t) = Except.error PyErr.decodeErr
    ∧ analyzeWithOpenai (VisionOutcome.ok t) noise = fallbackAnalysis noise none := by
  have h1 : visionBodyE (VisionOutcome.ok t) = Except.error PyErr.decodeErr := by
    simp only [visionBodyE]
    rw [h]
  refine ⟨h1, ?_⟩
  unfold analyzeWithOpenai
  rw [h1]

/-- Witness for C3 at a concrete payload-free response. -/
theorem C3_witness :
    visionBodyE (VisionOutcome.ok respNoPayload) = Except.error PyErr.decodeErr
    ∧ analyzeWithOpenai (VisionOutcome.ok respNoPayload) noiseZero
      = fallbackAnalysis noiseZero none :=
  C3_malformed_response respNoPayload noiseZero rfl

/-- Counterexample to C3 as stated: for a response with no fenced block, no
brace span and no decodable payload, the scorer returns a score record (the
heuristic fallback) to its caller — no `MalformedResponseError` failure
reaches the caller. -/
theorem C3_cex :
    fencedExtractCL respNoPayload.data = none
    ∧ braceExtractCL respNoPayload.data = none
    ∧ jsonDecodeCL respNoPayload.data = none
    ∧ analyzeWithOpenai (VisionOutcome.ok respNoPayload) noiseZero
      = fallbackAnalysis noiseZero none :=
  ⟨rfl, rfl, rfl, rfl⟩

/-! ## Claim C2: ranges of the numeric fields -/

theorem validScoreB_div10 {n : ℤ} (h0 : 0 ≤ n) (h1 : n ≤ 1000) :
    validScoreB ((n : ℚ) / 10) = true := by
  rw [validScoreB_eq_true_iff]
  refine ⟨?_, ?_, ?_⟩
  · have : (0 : ℚ) ≤ (n : ℚ) := by exact_mod_cast h0
    positivity
  · rw [div_le_iff₀ (by norm_num : (0 : ℚ) < 10)]
    have : (n : ℚ) ≤ 1000 := by exact_mod_cast h1
    linarith
  · have h : 10 * ((n : ℚ) / 10) = (n : ℚ) := by field_simp
    rw [h, Rat.den_intCast]

theorem validScoreB_lit {x : ℚ} (n : ℤ) (hx : x = (n : ℚ) / 10) (h0 : 0 ≤ n)
    (h1 : n ≤ 1000) : validScoreB x = true := by
  rw [hx]
  exact validScoreB_div10 h0 h1

theorem bounds_sub_min {x : ℚ} (h : 0 ≤ x) :
    0 ≤ 100 - min 100 x ∧ 100 - min 100 x ≤ 100 := by
  have h1 : min 100 x ≤ (100 : ℚ) := min_le_left _ _
  have h2 : (0 : ℚ) ≤ min 100 x := le_min (by norm_num) h
  constructor <;> linarith

theorem bounds_min100 {x : ℚ} (h : 0 ≤ x) : 0 ≤ min 100 x ∧ min 100 x ≤ 100 :=
  ⟨le_min (by norm_num) h, min_le_left _ _⟩

theorem meanAbsDiff_nonneg (a b : List ℚ) : 0 ≤ meanAbsDiff a b := by
  refine listMean_nonneg ?_
  intro x hx
  simp only [List.mem_map] at hx
  obtain ⟨p, _, hp⟩ := hx
  rw [← hp]
  exact abs_nonneg _

theorem movementSeqGo_nonneg (fs : List (Option (List ℚ))) :
    ∀ (prev : Option (List ℚ)) (x : ℚ), x ∈ movementSeqGo fs prev → 0 ≤ x := by
  induction fs with
  | nil =>
    intro prev x hx
    simp [movementSeqGo] at hx
  | cons hd tl ih =>
    intro prev x hx
    cases hd with
    | none => exact ih prev x (by simpa [movementSeqGo] using hx)
    | some f =>
      cases prev with
      | none => exact ih (some f) x (by simpa [movementSeqGo] using hx)
      | some p =>
        simp only [movementSeqGo, List.mem_cons] at hx
        rcases hx with hx | hx
        · rw [hx]
          exact meanAbsDiff_nonneg f p
        · exact ih (some f) x hx

theorem movementSeq_nonneg (frames : List (Option (List ℚ))) :
    ∀ x ∈ movementSeq frames, 0 ≤ x := by
  intro x hx
  exact movementSeqGo_nonneg (frames.take 30) none x hx

theorem le_listMaxOf (x : ℚ) (xs : List ℚ) : x ≤ listMaxOf x xs := by
  induction xs generalizing x with
  | nil => exact le_refl x
  | cons a l ih => exact le_trans (le_max_left x a) (ih (max x a))

theorem listMinOf_le (x : ℚ) (xs : List ℚ) : listMinOf x xs ≤ x := by
  induction xs generalizing x with
  | nil => exact le_refl x
  | cons a l ih => exact le_trans (ih (min x a)) (min_le_left x a)

theorem audioValid_some (f : AudioFeatures) (σp σb : ℚ) (hp : 0 ≤ σp) (hb : 0 ≤ σb)
    (hc : 0 ≤ f.centroidMean) (hr : 0 ≤ f.rmsStd) :
    validScoreB (analyzeAudio (some f) σp σb).pitchAccuracy = true
    ∧ validScoreB (analyzeAudio (some f) σp σb).rhythmScore = true
    ∧ validScoreB (analyzeAudio (some f) σp σb).clarity = true
    ∧ validScoreB (analyzeAudio (some f) σp σb).dynamics = true
    ∧ validScoreB (analyzeAudio (some f) σp σb).expression = true := by
  have hpb : 0 ≤ (if 0 < f.pitchValues.length then (100 : ℚ) - min 100 (σp / 10) else 70)
      ∧ (if 0 < f.pitchValues.length then (100 : ℚ) - min 100 (σp / 10) else 70) ≤ 100 := by
    split
    · exact bounds_sub_min (by positivity)
    · constructor <;> norm_num
  have hrb : 0 ≤ (if 0 < f.beatIntervals.length then (100 : ℚ) - min 100 (σb * 50) else 70)
      ∧ (if 0 < f.beatIntervals.length then (100 : ℚ) - min 100 (σb * 50) else 70) ≤ 100 := by
    split
    · exact bounds_sub_min (by positivity)
    · constructor <;> norm_num
  have hcb : 0 ≤ min (100 : ℚ) (50 + f.centroidMean / 100)
      ∧ min (100 : ℚ) (50 + f.centroidMean / 100) ≤ 100 := by
    refine bounds_min100 ?_
    have : 0 ≤ f.centroidMean / 100 := by positivity
    linarith
  have hdb : 0 ≤ min (100 : ℚ) (50 + f.rmsStd * 200)
      ∧ min (100 : ℚ) (50 + f.rmsStd * 200) ≤ 100 := by
    refine bounds_min100 ?_
    have : 0 ≤ f.rmsStd * 200 := by positivity
    linarith
  refine ⟨?_, ?_, ?_, ?_, ?_⟩
  · exact validScoreB_pyRound1 hpb.1 hpb.2
  · exact validScoreB_pyRound1 hrb.1 hrb.2
  · exact validScoreB_pyRound1 hcb.1 hcb.2
  · exact validScoreB_pyRound1 hdb.1 hdb.2
  · refine validScoreB_pyRound1 ?_ ?_ <;>
    · obtain ⟨h1, h2⟩ := hpb
      obtain ⟨h3, h4⟩ := hdb
      linarith

theorem audioValid_none (σp σb : ℚ) :
    validScoreB (analyzeAudio none σp σb).pitchAccuracy = true
    ∧ validScoreB (analyzeAudio none σp σb).rhythmScore = true
    ∧ validScoreB (analyzeAudio none σp σb).clarity = true
    ∧ validScoreB (analyzeAudio none σp σb).dynamics = true
    ∧ validScoreB (analyzeAudio none σp σb).expression = true := by
  have h75 : validScoreB (75 : ℚ) = true :=
    validScoreB_lit 750 (by norm_num) (by norm_num) (by norm_num)
  have h70 : validScoreB (70 : ℚ) = true :=
    validScoreB_lit 700 (by norm_num) (by norm_num) (by norm_num)
  have h725 : validScoreB ((145 : ℚ) / 2) = true :=
    validScoreB_lit 725 (by norm_num) (by norm_num) (by norm_num)
  exact ⟨h75, h75, h75, h70, h725⟩

theorem movementValid (frames : List (Option (List ℚ))) (σ : ℚ)
    (hσ : IsStd (movementSeq frames) σ) :
    validScoreB (analyzeMovement frames σ).fluidity = true
    ∧ validScoreB (analyzeMovement frames σ).precision = true
    ∧ validScoreB (analyzeMovement frames σ).rhythmSync = true
    ∧ 0 ≤ (analyzeMovement frames σ).creativity
    ∧ (10 * (analyzeMovement frames σ).creativity).den = 1 := by
  have hσ0 : 0 ≤ σ := hσ.1
  unfold analyzeMovement
  split
  · refine ⟨?_, ?_, ?_, by norm_num, ?_⟩
    · exact validScoreB_lit 750 (by norm_num) (by norm_num) (by norm_num)
    · exact validScoreB_lit 750 (by norm_num) (by norm_num) (by norm_num)
    · exact validScoreB_lit 750 (by norm_num) (by norm_num) (by norm_num)
    · have h : 10 * (70 : ℚ) = ((700 : ℤ) : ℚ) := by norm_num
      rw [h, Rat.den_intCast]
  · rename_i m ms heq
    dsimp only
    have havg : 0 ≤ listMean (m :: ms) := by
      refine listMean_nonneg ?_
      intro x hx
      refine movementSeq_nonneg frames x ?_
      rw [heq]
      exact hx
    have hmul : 0 ≤ listMean (m :: ms) * 500 := by positivity
    have hfl : 0 ≤ min (100 : ℚ) (50 + listMean (m :: ms) * 500)
        ∧ min (100 : ℚ) (50 + listMean (m :: ms) * 500) ≤ 100 := by
      refine bounds_min100 ?_
      linarith
    have hfl50 : (50 : ℚ) ≤ min 100 (50 + listMean (m :: ms) * 500) := by
      refine le_min (by norm_num) ?_
      linarith
    have hσm : 0 ≤ σ * 1000 := by positivity
    have hpr : 0 ≤ max (0 : ℚ) (100 - σ * 1000)
        ∧ max (0 : ℚ) (100 - σ * 1000) ≤ 100 := by
      constructor
      · exact le_max_left _ _
      · refine max_le (by norm_num) ?_
        linarith
    refine ⟨?_, ?_, ?_, ?_, ?_⟩
    · exact validScoreB_pyRound1 hfl.1 hfl.2
    · exact validScoreB_pyRound1 hpr.1 hpr.2
    · refine validScoreB_pyRound1 ?_ ?_ <;>
      · obtain ⟨h1, h2⟩ := hfl
        obtain ⟨h3, h4⟩ := hpr
        linarith
    · have harg : 0 ≤ min (100 : ℚ) (50 + listMean (m :: ms) * 500) * 0.8 + σ * 200 := by
        have h08 : (0 : ℚ) ≤ min 100 (50 + listMean (m :: ms) * 500) * 0.8 := by
          have := hfl.1
          nlinarith
        have h200 : (0 : ℚ) ≤ σ * 200 := by positivity
        linarith
      have := pyRound1_ge (a := 0)
        (x := min (100 : ℚ) (50 + listMean (m :: ms) * 500) * 0.8 + σ * 200)
        (by exact_mod_cast harg)
      simpa using this
    · exact pyRound1_oneDec _

theorem expressionValid (frames : List (Option FaceLandmarks)) :
    validScoreB (analyzeExpression frames).emotionRange = true
    ∧ validScoreB (analyzeExpression frames).authenticity = true
    ∧ validScoreB (analyzeExpression frames).cameraPresence = true := by
  unfold analyzeExpression
  split
  · refine ⟨?_, ?_, ?_⟩
    · exact validScoreB_lit 750 (by norm_num) (by norm_num) (by norm_num)
    · exact validScoreB_lit 780 (by norm_num) (by norm_num) (by norm_num)
    · exact validScoreB_lit 750 (by norm_num) (by norm_num) (by norm_num)
  · rename_i e es heq
    dsimp only
    have hmem : ∀ x ∈ e :: es, 0 ≤ x := by
      intro x hx
      have : x ∈ ((frames.take 20).filterMap id).map intensity := by
        rw [heq]
        exact hx
      simp only [List.mem_map] at this
      obtain ⟨fl, _, hfl⟩ := this
      rw [← hfl]
      unfold intensity
      positivity
    have havg : 0 ≤ listMean (e :: es) := listMean_nonneg hmem
    have hrng : 0 ≤ listMaxOf e es - listMinOf e es := by
      have h1 := listMinOf_le e es
      have h2 := le_listMaxOf e es
      linarith
    refine ⟨?_, ?_, ?_⟩
    · refine validScoreB_pyRound1 ?_ (min_le_left _ _)
      have : 0 ≤ (listMaxOf e es - listMinOf e es) * 10 := by positivity
      exact le_min (by norm_num) (by linarith)
    · refine validScoreB_pyRound1 ?_ (min_le_left _ _)
      have : 0 ≤ listMean (e :: es) * 2 := by positivity
      exact le_min (by norm_num) (by linarith)
    · refine validScoreB_pyRound1 ?_ (min_le_left _ _)
      have h1 : 0 ≤ listMean (e :: es) * 1.5 := by
        nlinarith
      have h2 : 0 ≤ (listMaxOf e es - listMinOf e es) * 5 := by positivity
      exact le_min (by norm_num) (by linarith)

/-- Claim C2 (amended): every numeric field present in a structure returned
by `analyze`, `analyze_audio`, `analyze_movement` or `analyze_expression` is
in `[0, 100]` with at most one decimal digit — EXCEPT the movement
analyzer's `creativity`, which is one-decimal and nonnegative but has no
upper clamp and can exceed 100 (see the counterexample). -/
theorem C2_field_ranges :
    (∀ (hasClient : Bool) (req : Request) (o : VisionOutcome) (noise : Noise),
      presentValidB (analyze hasClient req o noise) = true)
    ∧ (∀ (σp σb : ℚ),
      validScoreB (analyzeAudio none σp σb).pitchAccuracy = true
      ∧ validScoreB (analyzeAudio none σp σb).rhythmScore = true
      ∧ validScoreB (analyzeAudio none σp σb).clarity = true
      ∧ validScoreB (analyzeAudio none σp σb).dynamics = true
      ∧ validScoreB (analyzeAudio none σp σb).expression = true)
    ∧ (∀ (f : AudioFeatures) (σp σb : ℚ), 0 ≤ σp → 0 ≤ σb →
      0 ≤ f.centroidMean → 0 ≤ f.rmsStd →
      validScoreB (analyzeAudio (some f) σp σb).pitchAccuracy = true
      ∧ validScoreB (analyzeAudio (some f) σp σb).rhythmScore = true
      ∧ validScoreB (analyzeAudio (some f) σp σb).clarity = true
      ∧ validScoreB (analyzeAudio (some f) σp σb).dynamics = true
      ∧ validScoreB (analyzeAudio (some f) σp σb).expression = true)
    ∧ (∀ (frames : List (Option (List ℚ))) (σ : ℚ), IsStd (movementSeq frames) σ →
      validScoreB (analyzeMovement frames σ).fluidity = true
      ∧ validScoreB (analyzeMovement frames σ).precision = true
      ∧ validScoreB (analyzeMovement frames σ).rhythmSync = true
      ∧ 0 ≤ (analyzeMovement frames σ).creativity
      ∧ (10 * (analyzeMovement frames σ).creativity).den = 1)
    ∧ (∀ frames : List (Option FaceLandmarks),
      validScoreB (analyzeExpression frames).emotionRange = true
      ∧ validScoreB (analyzeExpression frames).authenticity = true
      ∧ validScoreB (analyzeExpression frames).cameraPresence = true) := by
  refine ⟨?_, ?_, ?_, ?_, ?_⟩
  · intro hasClient req o noise
    rw [analyze_eq_branches]
    split
    · exact presentValidB_analyzeWithOpenai o noise
    · exact presentValidB_of_structValidB (structValidB_fallback noise req.duration)
  · intro σp σb
    exact audioValid_none σp σb
  · intro f σp σb hp hb hc hr
    exact audioValid_some f σp σb hp hb hc hr
  · intro frames σ hσ
    exact movementValid frames σ hσ
  · intro frames
    exact expressionValid frames

/-- Witness for C2 at concrete inputs for each operation. -/
theorem C2_witness :
    presentValidB (analyze true reqThumb VisionOutcome.netFail noiseZero) = true
    ∧ validScoreB (analyzeAudio none 0 0).pitchAccuracy = true
    ∧ validScoreB (analyzeAudio (some ⟨[1], [1], 0, 0⟩) 0 0).clarity = true
    ∧ validScoreB (analyzeMovement [] 0).fluidity = true
    ∧ validScoreB (analyzeExpression []).emotionRange = true := by
  obtain ⟨h1, h2, h3, h4, h5⟩ := C2_field_ranges
  refine ⟨h1 true reqThumb VisionOutcome.netFail noiseZero,
          (h2 0 0).1,
          (h3 ⟨[1], [1], 0, 0⟩ 0 0 (by norm_num) (by norm_num) (by norm_num)
            (by norm_num)).2.2.1,
          (h4 [] 0 ?_).1,
          (h5 []).1⟩
  constructor
  · norm_num
  · show (0 : ℚ) * 0 = listVariance (movementSeq [])
    have hempty : movementSeq [] = [] := rfl
    rw [hempty]
    simp [listVariance, listMean]

/-- Counterexample to C2 as stated: three landmark frames producing the
movement sequence `[0, 1]` give `creativity = 180`, outside `[0, 100]`. -/
theorem C2_cex :
    IsStd (movementSeq cexFrames) (1/2)
    ∧ (analyzeMovement cexFrames (1/2)).creativity = 180
    ∧ ¬ (analyzeMovement cexFrames (1/2)).creativity ≤ 100 := by
  have hseq : movementSeq cexFrames = [0, 1] := by
    show movementSeqGo (cexFrames.take 30) none = [0, 1]
    have h1 : cexFrames.take 30 = [some [0], some [0], some [1]] := rfl
    rw [h1]
    show movementSeqGo [some [0], some [0], some [1]] none = [0, 1]
    simp only [movementSeqGo]
    unfold meanAbsDiff listMean
    norm_num
  have hstd : IsStd (movementSeq cexFrames) (1/2) := by
    rw [hseq]
    constructor
    · norm_num
    · unfold listVariance listMean
      norm_num
  refine ⟨hstd, ?_, ?_⟩
  · unfold analyzeMovement
    rw [hseq]  -- reduce the match on the movement sequence
    show pyRound1 (min 100 (50 + listMean [0, 1] * 500) * 0.8 + 1/2 * 200) = 180
    have hm : listMean [(0 : ℚ), 1] = 1/2 := by
      unfold listMean
      norm_num
    rw [hm]
    have harg : min (100 : ℚ) (50 + 1/2 * 500) * 0.8 + 1/2 * 200 = 180 := by
      rw [min_eq_left (by norm_num : (100 : ℚ) ≤ 50 + 1/2 * 500)]
      norm_num
    rw [harg]
    have h180 : (180 : ℚ) = ((180 : ℤ) : ℚ) := by norm_num
    rw [h180, pyRound1_intCast]
  · intro hle
    rw [show (analyzeMovement cexFrames (1/2)).creativity = 180 from ?_] at hle
    · norm_num at hle
    · unfold analyzeMovement
      rw [hseq]
      show pyRound1 (min 100 (50 + listMean [0, 1] * 500) * 0.8 + 1/2 * 200) = 180
      have hm : listMean [(0 : ℚ), 1] = 1/2 := by
        unfold listMean
        norm_num
      rw [hm]
      have harg : min (100 : ℚ) (50 + 1/2 * 500) * 0.8 + 1/2 * 200 = 180 := by
        rw [min_eq_left (by norm_num : (100 : ℚ) ≤ 50 + 1/2 * 500)]
        norm_num
      rw [harg]
      have h180 : (180 : ℚ) = ((180 : ℤ) : ℚ) := by norm_num
      rw [h180, pyRound1_intCast]

/-! ## Claim C8: fenced and bare payloads parse identically -/

theorem dropThrough_self (p : Char) (ps rest : List Char) :
    dropThrough (p :: ps) ((p :: ps) ++ rest) = some rest := by
  have hpre : (p :: ps).isPrefixOf ((p :: ps) ++ rest) = true := by
    rw [ List.isPrefixOf_iff_prefix]
    exact (p :: ps).prefix_append rest
  show dropThrough (p :: ps) (p :: (ps ++ rest)) = some rest
  rw [dropThrough, if_pos (by simp)]
  simp

theorem dropThrough_eq_none {cs : List Char} (ps : List Char)
    (hno : ∀ c ∈ cs, c ≠ btick) : dropThrough (btick :: ps) cs = none := by
  induction cs with
  | nil => simp [dropThrough, List.isPrefixOf]
  | cons c cs' ih =>
    have hc : c ≠ btick := hno c (by simp)
    have hpre : (btick :: ps).isPrefixOf (c :: cs') = false := by
      have : (btick == c) = false := beq_eq_false_iff_ne.mpr (Ne.symm hc)
      simp [List.isPrefixOf, this]
    rw [dropThrough, if_neg (by simp [hpre])]
    exact ih (fun x hx => hno x (List.mem_cons_of_mem c hx))

theorem upToAux_append {u : List Char} (hno : ∀ c ∈ u, c ≠ btick) (v : List Char) :
    upToAux fenceTok ((u ++ fenceTok) ++ v) = some u := by
  induction u with
  | nil =>
    have hpre : fenceTok.isPrefixOf (fenceTok ++ v) = true := by
      rw [ List.isPrefixOf_iff_prefix]
      exact fenceTok.prefix_append v
    show upToAux fenceTok (btick :: ([btick, btick] ++ v)) = some []
    rw [upToAux, if_pos (by simp [fenceTok])]
  | cons c u' ih =>
    have hc : c ≠ btick := hno c (by simp)
    have hpre : fenceTok.isPrefixOf (c :: ((u' ++ fenceTok) ++ v)) = false := by
      have : (btick == c) = false := beq_eq_false_iff_ne.mpr (Ne.symm hc)
      simp [fenceTok, List.isPrefixOf, this]
    show upToAux fenceTok (c :: ((u' ++ fenceTok) ++ v)) = some (c :: u')
    rw [upToAux, if_neg (by rw [hpre]; exact Bool.false_ne_true),
        ih (fun x hx => hno x (List.mem_cons_of_mem c hx))]
    rfl

theorem trimWs_wrap (m : List Char) :
    trimWs ('\n' :: ((lbrace :: m ++ [rbrace]) ++ ['\n'])) = lbrace :: m ++ [rbrace] := by
  have h1 : reWs '\n' = true := rfl
  have h2 : reWs lbrace = false := rfl
  have h3 : reWs rbrace = false := rfl
  unfold trimWs
  rw [List.dropWhile_cons, if_pos (by simp [h1])]
  have hx : (lbrace :: m ++ [rbrace]) ++ ['\n'] = lbrace :: ((m ++ [rbrace]) ++ ['\n']) := by
    simp
  rw [hx, List.dropWhile_cons, if_neg (by simp [h2])]
  have hrev : (lbrace :: ((m ++ [rbrace]) ++ ['\n'])).reverse
      = '\n' :: (rbrace :: (m.reverse ++ [lbrace])) := by
    simp
  rw [hrev, List.dropWhile_cons, if_pos (by simp [h1]),
      List.dropWhile_cons, if_neg (by simp [h3])]
  simp

theorem fencedExtractCL_wrap (m : List Char) (hno : ∀ c ∈ m, c ≠ btick) :
    fencedExtractCL (fenceWrap (String.mk (lbrace :: m ++ [rbrace]))).data
      = some (lbrace :: m ++ [rbrace]) := by
  have hdata : (fenceWrap (String.mk (lbrace :: m ++ [rbrace]))).data
      = ("```json\n".data ++ (lbrace :: m ++ [rbrace])) ++ "\n```".data := rfl
  have hsplit : ("```json\n".data ++ (lbrace :: m ++ [rbrace])) ++ "\n```".data
      = fenceJsonTok ++ (('\n' :: ((lbrace :: m ++ [rbrace]) ++ ['\n'])) ++ fenceTok) := by
    show (([btick, btick, btick, 'j', 's', 'o', 'n', '\n'])
        ++ (lbrace :: m ++ [rbrace])) ++ ['\n', btick, btick, btick] = _
    simp [fenceJsonTok, fenceTok]
  unfold fencedExtractCL
  rw [hdata, hsplit]
  have hd : dropThrough fenceJsonTok
      (fenceJsonTok ++ (('\n' :: ((lbrace :: m ++ [rbrace]) ++ ['\n'])) ++ fenceTok))
      = some (('\n' :: ((lbrace :: m ++ [rbrace]) ++ ['\n'])) ++ fenceTok) :=
    dropThrough_self btick [btick, btick, 'j', 's', 'o', 'n'] _
  rw [hd]
  have hnou : ∀ c ∈ '\n' :: ((lbrace :: m ++ [rbrace]) ++ ['\n']), c ≠ btick := by
    intro c hc hb
    subst hb
    rcases List.mem_cons.mp hc with h | h
    · exact absurd h (by decide)
    · rcases List.mem_append.mp h with h' | h'
      · rcases List.mem_cons.mp h' with h2 | h2
        · exact absurd h2 (by decide)
        · rcases List.mem_append.mp h2 with h3 | h3
          · exact hno btick h3 rfl
          · exact absurd (List.mem_singleton.mp h3) (by decide)
      · exact absurd (List.mem_singleton.mp h') (by decide)
  have hu : upToAux fenceTok
      (('\n' :: ((lbrace :: m ++ [rbrace]) ++ ['\n'])) ++ fenceTok)
      = some ('\n' :: ((lbrace :: m ++ [rbrace]) ++ ['\n'])) := by
    have := upToAux_append hnou []
    rwa [List.append_nil] at this
  show Option.map trimWs
      (upToAux fenceTok (('\n' :: ((lbrace :: m ++ [rbrace]) ++ ['\n'])) ++ fenceTok))
      = some (lbrace :: m ++ [rbrace])
  rw [hu]
  show some (trimWs ('\n' :: ((lbrace :: m ++ [rbrace]) ++ ['\n'])))
      = some (lbrace :: m ++ [rbrace])
  rw [trimWs_wrap]

theorem fencedExtractCL_eq_none {cs : List Char} (hno : ∀ c ∈ cs, c ≠ btick) :
    fencedExtractCL cs = none := by
  unfold fencedExtractCL
  have : dropThrough fenceJsonTok cs = none :=
    dropThrough_eq_none [btick, btick, 'j', 's', 'o', 'n'] hno
  rw [this]
  rfl

theorem braceExtractCL_self (m : List Char) :
    braceExtractCL (lbrace :: m ++ [rbrace]) = some (lbrace :: m ++ [rbrace]) := by
  unfold braceExtractCL
  have h1 : (lbrace :: m ++ [rbrace]).dropWhile (fun c => !(c == lbrace))
      = lbrace :: (m ++ [rbrace]) := by
    rw [show lbrace :: m ++ [rbrace] = lbrace :: (m ++ [rbrace]) from rfl,
        List.dropWhile_cons, if_neg (by simp)]
  rw [h1]
  dsimp only
  have h2 : (lbrace :: (m ++ [rbrace])).reverse.dropWhile (fun c' => !(c' == rbrace))
      = rbrace :: (m.reverse ++ [lbrace]) := by
    have hrev : (lbrace :: (m ++ [rbrace])).reverse = rbrace :: (m.reverse ++ [lbrace]) := by
      simp
    rw [hrev, List.dropWhile_cons, if_neg (by simp)]
  rw [h2]
  dsimp only
  simp

theorem extractContentCL_bare (m : List Char) (hno : ∀ c ∈ m, c ≠ btick) :
    extractContentCL (lbrace :: m ++ [rbrace]) = lbrace :: m ++ [rbrace] := by
  have hnoall : ∀ c ∈ lbrace :: m ++ [rbrace], c ≠ btick := by
    intro c hc hb
    subst hb
    rcases List.mem_cons.mp hc with h | h
    · exact absurd h (by decide)
    · rcases List.mem_append.mp h with h' | h'
      · exact hno btick h' rfl
      · exact absurd (List.mem_singleton.mp h') (by decide)
  unfold extractContentCL
  rw [fencedExtractCL_eq_none hnoall, braceExtractCL_self]

/-- Claim C8 (amended): for every brace-delimited object text free of
backticks, the scorer body computes the identical result on the response
consisting of the bare object and on the response wrapping it in a fenced
code block; both extract exactly the object text and hand it to the same
decode.  The amendment: step (2) of the parsing order is the greedy span
from the first left brace to the last right brace, not the "first balanced
structured-object substring" the spec describes (see the counterexample). -/
theorem C8_fenced_equals_bare (m : List Char) (hno : ∀ c ∈ m, c ≠ btick) :
    visionBodyE (VisionOutcome.ok (fenceWrap (String.mk (lbrace :: m ++ [rbrace]))))
      = visionBodyE (VisionOutcome.ok (String.mk (lbrace :: m ++ [rbrace])))
    ∧ extractContentCL (fenceWrap (String.mk (lbrace :: m ++ [rbrace]))).data
      = lbrace :: m ++ [rbrace]
    ∧ extractContentCL (String.mk (lbrace :: m ++ [rbrace])).data
      = lbrace :: m ++ [rbrace] := by
  have h1 : extractContentCL (fenceWrap (String.mk (lbrace :: m ++ [rbrace]))).data
      = lbrace :: m ++ [rbrace] := by
    unfold extractContentCL
    rw [fencedExtractCL_wrap m hno]
  have h2 : extractContentCL (String.mk (lbrace :: m ++ [rbrace])).data
      = lbrace :: m ++ [rbrace] := extractContentCL_bare m hno
  refine ⟨?_, h1, h2⟩
  simp only [visionBodyE]
  rw [h1, h2]

/-- Witness for C8 on the object text of the spec's example. -/
theorem C8_witness :
    visionBodyE (VisionOutcome.ok (fenceWrap
        (String.mk (lbrace :: "\"performanceScore\":88".data ++ [rbrace]))))
      = visionBodyE (VisionOutcome.ok
        (String.mk (lbrace :: "\"performanceScore\":88".data ++ [rbrace])))
    ∧ extractContentCL (String.mk
        (lbrace :: "\"performanceScore\":88".data ++ [rbrace])).data
      = lbrace :: "\"performanceScore\":88".data ++ [rbrace] := by
  obtain ⟨ha, _, hc⟩ := C8_fenced_equals_bare "\"performanceScore\":88".data (by decide)
  exact ⟨ha, hc⟩

/-- Counterexample to C8's description of step (2): on a response holding two
separate objects, the first balanced substring (the spec's words) is the
first object and decodes, while the code's greedy span covers both objects
and fails to decode, sending the scorer to the fallback. -/
theorem C8_cex :
    braceExtractSpecCL respTwoObjects.data = some "\x7b\"a\":1\x7d".data
    ∧ jsonDecodeCL "\x7b\"a\":1\x7d".data
      = some (Json.obj [("a", Json.num (JNum.ofNat 1))])
    ∧ extractContentCL respTwoObjects.data = respTwoObjects.data
    ∧ jsonDecodeCL (extractContentCL respTwoObjects.data) = none
    ∧ visionBodyE (VisionOutcome.ok respTwoObjects) = Except.error PyErr.decodeErr :=
  ⟨rfl, rfl, rfl, rfl, rfl⟩

end VideoAnalyzer
